import Mathlib

/-!
# GRPropa: particle state, observer pipeline and text output

A shallow embedding of `src/ParticleState.cpp`, `src/module/Observer.cpp` and the two
conditional output modules of `src/module/OutputTXT.cpp`.

* `double` values are elements of a linearly ordered field `α` (exact arithmetic); the
  statements that need genuine square roots are stated over `ℝ` with `Real.sqrt`.
* `std::sqrt`, the unit constants of `Units.h`, `HepPID::charge` and `eplus` are external to
  the sources and enter as parameters.
* `int` particle identifiers are integers in the 32-bit range; the conversion of a `double`
  back to `int` is written out with an explicit wrap.
* A method taking `Candidate *` becomes a function returning the updated candidate.
-/

namespace grpropa

/-! ## Vector3d -/

/-- Three-component vector `Vector3d`; the operations below are the componentwise ones the
two translation units use. -/
structure Vector3d (α : Type) where
  x : α
  y : α
  z : α
deriving DecidableEq

section Vec
variable {α : Type} [LinearOrderedField α]

/-- Difference of vectors, `operator-`. -/
def Vector3d.sub (a b : Vector3d α) : Vector3d α :=
  ⟨a.x - b.x, a.y - b.y, a.z - b.z⟩

/-- Sum of vectors, `operator+`. -/
def Vector3d.add (a b : Vector3d α) : Vector3d α :=
  ⟨a.x + b.x, a.y + b.y, a.z + b.z⟩

/-- Division by a scalar, `operator/(const T &)`. -/
def Vector3d.div (a : Vector3d α) (f : α) : Vector3d α :=
  ⟨a.x / f, a.y / f, a.z / f⟩

/-- Multiplication by a scalar, `operator*(const T &)`. -/
def Vector3d.mul (a : Vector3d α) (f : α) : Vector3d α :=
  ⟨a.x * f, a.y * f, a.z * f⟩

/-- Length of the vector, `getR()`: the square root of the sum of squares, with the
square root function supplied by the caller. -/
def Vector3d.getR (sqrt : α → α) (a : Vector3d α) : α :=
  sqrt (a.x * a.x + a.y * a.y + a.z * a.z)

end Vec

/-! ## ParticleState -/

/-- The data members of `ParticleState`. -/
structure ParticleState (α : Type) where
  id : Int
  energy : α
  position : Vector3d α
  direction : Vector3d α
  pmass : α
  charge : α

section PS
variable {α : Type} [LinearOrderedField α]

/-- The assignment `position = pos`. -/
def ParticleState.setPosition (s : ParticleState α) (pos : Vector3d α) : ParticleState α :=
  { s with position := pos }

/-- Accessor `getPosition`. -/
def ParticleState.getPosition (s : ParticleState α) : Vector3d α := s.position

/-- The assignment `direction = dir / dir.getR()`. -/
def ParticleState.setDirection (sqrt : α → α) (s : ParticleState α) (dir : Vector3d α) :
    ParticleState α :=
  { s with direction := dir.div (dir.getR sqrt) }

/-- Accessor `getDirection`. -/
def ParticleState.getDirection (s : ParticleState α) : Vector3d α := s.direction

/-- The assignment `energy = std::max(0., newEnergy)`. -/
def ParticleState.setEnergy (s : ParticleState α) (newEnergy : α) : ParticleState α :=
  { s with energy := max 0 newEnergy }

/-- Accessor `getEnergy`. -/
def ParticleState.getEnergy (s : ParticleState α) : α := s.energy

/-- The assignments `id = newId; charge = HepPID::charge(id) * eplus`. -/
def ParticleState.setId (chargeOf : Int → α) (eplus : α) (s : ParticleState α) (newId : Int) :
    ParticleState α :=
  { s with id := newId, charge := chargeOf newId * eplus }

/-- Accessor `getId`. -/
def ParticleState.getId (s : ParticleState α) : Int := s.id

/-- Accessor `getMass`. -/
def ParticleState.getMass (s : ParticleState α) : α := s.pmass

/-- Accessor `getCharge`. -/
def ParticleState.getCharge (s : ParticleState α) : α := s.charge

/-- The constructor `ParticleState(id, E, pos, dir)`: the four setters run in order on the
object's storage `raw`, whose previous content is arbitrary. -/
def ParticleState.ctor (sqrt : α → α) (chargeOf : Int → α) (eplus : α) (raw : ParticleState α)
    (id : Int) (E : α) (pos dir : Vector3d α) : ParticleState α :=
  (((raw.setId chargeOf eplus id).setEnergy E).setPosition pos).setDirection sqrt dir

end PS

/-! ## Candidate -/

/-- Modelled from the spec: the class `Candidate` (Candidate.h and Candidate.cpp are not part
of the sources). The spec lists the three particle states, trajectory length, redshift, the
active flag, the string-keyed property map and the pending next-step bound, which starts each
step at +infinity (here the top element). -/
structure Candidate (α : Type) where
  source : ParticleState α
  current : ParticleState α
  previous : ParticleState α
  trajectoryLength : α
  redshift : α
  active : Bool
  properties : List (String × String)
  nextStep : WithTop α

section Cand
variable {α : Type} [LinearOrderedField α]

/-- Modelled from the spec: `Candidate::limitNextStep`, which is not part of the sources; it
"keeps the minimum of all proposals this step". -/
def Candidate.limitNextStep (c : Candidate α) (step : α) : Candidate α :=
  { c with nextStep := min c.nextStep (step : WithTop α) }

/-- Modelled from the spec: `Candidate::setActive`, which is not part of the sources; it
assigns the active flag. -/
def Candidate.setActive (c : Candidate α) (b : Bool) : Candidate α :=
  { c with active := b }

/-- Modelled from the spec: accessor `Candidate::getRedshift`. -/
def Candidate.getRedshift (c : Candidate α) : α := c.redshift

/-- Modelled from the spec: accessor `Candidate::getTrajectoryLength`. -/
def Candidate.getTrajectoryLength (c : Candidate α) : α := c.trajectoryLength

end Cand

/-! ## Observer features -/

/-- The enumeration `DetectionState`. -/
inductive DetectionState where
  | DETECTED
  | VETO
  | NOTHING
deriving DecidableEq

/-- One value printed by a `sprintf` conversion: `%i` prints an `int`, the floating
conversions print a `double`. The textual formatting itself is not modelled. -/
inductive Field (α : Type) where
  | int (i : Int)
  | real (x : α)
deriving DecidableEq

/-- The unit constants of `Units.h` used by the output features. -/
structure Units (α : Type) where
  Mpc : α
  eV : α
  EeV : α

/-- Conversion of an integral `double` to `int`, wrapping into the 32-bit range. -/
def toInt32 (x : Int) : Int := (x + 2 ^ 31) % 2 ^ 32 - 2 ^ 31

/-- The range of the C++ type `int`. -/
def IsInt32 (n : Int) : Prop := -(2 ^ 31) ≤ n ∧ n < 2 ^ 31

instance (n : Int) : Decidable (IsInt32 n) := by
  unfold IsInt32; infer_instance

section Features
variable {α : Type} [LinearOrderedField α]

/-- The base-class default `ObserverFeature::checkDetection`. -/
def ObserverFeature.defaultCheckDetection (c : Candidate α) : DetectionState × Candidate α :=
  (DetectionState.NOTHING, c)

/-- The base-class default `ObserverFeature::onDetection`, an empty body. -/
def ObserverFeature.defaultOnDetection (c : Candidate α)
    (out : List (String × List (Field α))) : Candidate α × List (String × List (Field α)) :=
  (c, out)

/-- The method `ObserverSmallSphere::checkDetection`. -/
def ObserverSmallSphere.checkDetection (sqrt : α → α) (center : Vector3d α) (radius : α)
    (candidate : Candidate α) : DetectionState × Candidate α :=
  let d := (candidate.current.getPosition.sub center).getR sqrt
  let candidate := candidate.limitNextStep |d - radius|
  if d > radius then (DetectionState.NOTHING, candidate)
  else
    let dprev := (candidate.previous.getPosition.sub center).getR sqrt
    if dprev ≤ radius then (DetectionState.NOTHING, candidate)
    else (DetectionState.DETECTED, candidate)

/-- The method `ObserverLargeSphere::checkDetection`. -/
def ObserverLargeSphere.checkDetection (sqrt : α → α) (center : Vector3d α) (radius : α)
    (candidate : Candidate α) : DetectionState × Candidate α :=
  let d := (candidate.current.getPosition.sub center).getR sqrt
  let candidate := candidate.limitNextStep |radius - d|
  if d < radius then (DetectionState.NOTHING, candidate)
  else
    let dprev := (candidate.previous.getPosition.sub center).getR sqrt
    if dprev ≥ radius then (DetectionState.NOTHING, candidate)
    else (DetectionState.DETECTED, candidate)

/-- The method `ObserverPoint::checkDetection`. -/
def ObserverPoint.checkDetection (candidate : Candidate α) : DetectionState × Candidate α :=
  let x := candidate.current.getPosition.x
  if x > 0 then (DetectionState.NOTHING, candidate.limitNextStep x)
  else (DetectionState.DETECTED, candidate)

/-- The method `ObserverRedshiftWindow::checkDetection`. -/
def ObserverRedshiftWindow.checkDetection (zmin zmax : α) (candidate : Candidate α) :
    DetectionState × Candidate α :=
  let z := candidate.getRedshift
  if z > zmax then (DetectionState.VETO, candidate)
  else if z < zmin then (DetectionState.VETO, candidate)
  else (DetectionState.NOTHING, candidate)

/-- The method `ObserverNeutrinoVeto::checkDetection`; `int id = fabs(getId())` takes the
absolute value as a `double` and converts it back to `int`. -/
def ObserverNeutrinoVeto.checkDetection (c : Candidate α) : DetectionState × Candidate α :=
  let id := toInt32 |c.current.getId|
  if id = 12 ∨ id = 14 ∨ id = 16 then (DetectionState.NOTHING, c)
  else (DetectionState.VETO, c)

/-- The method `ObserverChargedLeptonVeto::checkDetection`. The third disjunct is
`fabs(id == 15)`: the comparison yields 1 or 0, `fabs` of it is taken, and the result counts
as true when it is nonzero. -/
def ObserverChargedLeptonVeto.checkDetection (c : Candidate α) : DetectionState × Candidate α :=
  let id := toInt32 |c.current.getId|
  if |id| = 11 ∨ |id| = 13 ∨ |(if id = 15 then (1 : α) else 0)| ≠ 0 then
    (DetectionState.NOTHING, c)
  else (DetectionState.VETO, c)

/-- The method `ObserverPhotonVeto::checkDetection`. -/
def ObserverPhotonVeto.checkDetection (c : Candidate α) : DetectionState × Candidate α :=
  if c.current.getId = 22 then (DetectionState.NOTHING, c)
  else (DetectionState.VETO, c)

/-- The method `ObserverOutput3D::onDetection`: one record with the printed values, in the
order of the `sprintf` calls, is appended to the file `fname`. -/
def ObserverOutput3D.onDetection (u : Units α) (fname : String) (candidate : Candidate α)
    (out : List (String × List (Field α))) : Candidate α × List (String × List (Field α)) :=
  let pos := candidate.current.getPosition.div u.Mpc
  let ipos := candidate.source.getPosition.div u.Mpc
  let dir := candidate.current.getDirection
  let idir := candidate.source.getDirection
  (candidate, out ++ [(fname,
    [Field.real (candidate.getTrajectoryLength / u.Mpc),
     Field.int candidate.current.getId,
     Field.int candidate.source.getId,
     Field.real (candidate.current.getEnergy / u.eV),
     Field.real (candidate.source.getEnergy / u.eV),
     Field.real pos.x, Field.real pos.y, Field.real pos.z,
     Field.real ipos.x, Field.real ipos.y, Field.real ipos.z,
     Field.real dir.x, Field.real dir.y, Field.real dir.z,
     Field.real idir.x, Field.real idir.y, Field.real idir.z,
     Field.real candidate.getRedshift])])

/-- The method `ObserverOutput1D::onDetection`. -/
def ObserverOutput1D.onDetection (u : Units α) (fname : String) (candidate : Candidate α)
    (out : List (String × List (Field α))) : Candidate α × List (String × List (Field α)) :=
  (candidate, out ++ [(fname,
    [Field.int candidate.current.getId,
     Field.real (candidate.current.getEnergy / u.EeV),
     Field.real (candidate.getTrajectoryLength / u.Mpc),
     Field.int candidate.source.getId,
     Field.real (candidate.source.getEnergy / u.EeV)])])

end Features

/-- The classes derived from `ObserverFeature` in `Observer.cpp`, each with its data
members; `plain` is the base class itself, with both default methods. -/
inductive ObserverFeature (α : Type) where
  | plain
  | ObserverSmallSphere (center : Vector3d α) (radius : α)
  | ObserverLargeSphere (center : Vector3d α) (radius : α)
  | ObserverPoint
  | ObserverRedshiftWindow (zmin zmax : α)
  | ObserverNeutrinoVeto
  | ObserverChargedLeptonVeto
  | ObserverPhotonVeto
  | ObserverOutput3D (fname : String)
  | ObserverOutput1D (fname : String)

section Dispatch
variable {α : Type} [LinearOrderedField α]

/-- Virtual dispatch of `checkDetection`: a class that does not override it inherits the
default. -/
def ObserverFeature.checkDetection (sqrt : α → α) (f : ObserverFeature α) (c : Candidate α) :
    DetectionState × Candidate α :=
  match f with
  | .ObserverSmallSphere center radius => ObserverSmallSphere.checkDetection sqrt center radius c
  | .ObserverLargeSphere center radius => ObserverLargeSphere.checkDetection sqrt center radius c
  | .ObserverPoint => ObserverPoint.checkDetection c
  | .ObserverRedshiftWindow zmin zmax => ObserverRedshiftWindow.checkDetection zmin zmax c
  | .ObserverNeutrinoVeto => ObserverNeutrinoVeto.checkDetection c
  | .ObserverChargedLeptonVeto => ObserverChargedLeptonVeto.checkDetection c
  | .ObserverPhotonVeto => ObserverPhotonVeto.checkDetection c
  | .plain => ObserverFeature.defaultCheckDetection c
  | .ObserverOutput3D _ => ObserverFeature.defaultCheckDetection c
  | .ObserverOutput1D _ => ObserverFeature.defaultCheckDetection c

/-- Virtual dispatch of `onDetection`: only the two output classes override it. -/
def ObserverFeature.onDetection (u : Units α) (f : ObserverFeature α) (c : Candidate α)
    (out : List (String × List (Field α))) : Candidate α × List (String × List (Field α)) :=
  match f with
  | .ObserverOutput3D fname => ObserverOutput3D.onDetection u fname c out
  | .ObserverOutput1D fname => ObserverOutput1D.onDetection u fname c out
  | _ => ObserverFeature.defaultOnDetection c out

end Dispatch

/-! ## Observer -/

/-- The data members of `Observer`: the flag given to the constructor and the registered
features, in registration order. -/
structure Observer (α : Type) where
  makeInactive : Bool
  features : List (ObserverFeature α)

/-- One virtual call made by `Observer::process`: the index of the feature in `features`,
and for `checkDetection` the verdict it returned. -/
inductive Call where
  | checkDetection (i : Nat) (s : DetectionState)
  | onDetection (i : Nat)
deriving DecidableEq

/-- What `Observer::process` acts on: the candidate, the records written to the output files
(oldest first, each with its file name), and the virtual calls made so far, in order. -/
structure World (α : Type) where
  candidate : Candidate α
  out : List (String × List (Field α))
  calls : List Call

section Obs
variable {α : Type} [LinearOrderedField α]

/-- The constructor `Observer(bool makeInactive)`: no feature registered yet. -/
def Observer.ctor (makeInactive : Bool) : Observer α :=
  { makeInactive := makeInactive, features := [] }

/-- The method `Observer::add`: `features.push_back(feature)`. -/
def Observer.add (o : Observer α) (feature : ObserverFeature α) : Observer α :=
  { o with features := o.features ++ [feature] }

/-- The body of the first loop of `Observer::process` for one verdict `s`: the update of the
local variable `state`. -/
def Observer.combine (state s : DetectionState) : DetectionState :=
  if s = DetectionState.VETO then DetectionState.VETO
  else if s = DetectionState.DETECTED ∧ state ≠ DetectionState.VETO then DetectionState.DETECTED
  else state

/-- The first loop of `Observer::process`, from index `i` on; `rest` holds `features[i]`,
`features[i+1]`, ... and `state` is the local variable of that name. -/
def Observer.checkLoop (sqrt : α → α) (rest : List (ObserverFeature α)) (i : Nat)
    (state : DetectionState) (w : World α) : DetectionState × World α :=
  match rest with
  | [] => (state, w)
  | f :: rest =>
    let r := f.checkDetection sqrt w.candidate
    Observer.checkLoop sqrt rest (i + 1) (Observer.combine state r.1)
      { w with candidate := r.2, calls := w.calls ++ [Call.checkDetection i r.1] }

/-- The second loop of `Observer::process`, from index `i` on. -/
def Observer.detectLoop (u : Units α) (rest : List (ObserverFeature α)) (i : Nat)
    (w : World α) : World α :=
  match rest with
  | [] => w
  | f :: rest =>
    let r := f.onDetection u w.candidate w.out
    Observer.detectLoop u rest (i + 1)
      { candidate := r.1, out := r.2, calls := w.calls ++ [Call.onDetection i] }

/-- The value of the local variable `state` of `Observer::process` after the first loop. -/
def Observer.verdict (sqrt : α → α) (o : Observer α) (w : World α) : DetectionState :=
  (Observer.checkLoop sqrt o.features 0 DetectionState.NOTHING w).1

/-- The method `Observer::process`. -/
def Observer.process (sqrt : α → α) (u : Units α) (o : Observer α) (w : World α) : World α :=
  let r := Observer.checkLoop sqrt o.features 0 DetectionState.NOTHING w
  if r.1 = DetectionState.DETECTED then
    let w := Observer.detectLoop u o.features 0 r.2
    if o.makeInactive then { w with candidate := w.candidate.setActive false }
    else w
  else r.2

/-- The calls made by one run of `Observer::process`: those recorded after the ones the
world already held. -/
def Observer.callsOf (sqrt : α → α) (u : Units α) (o : Observer α) (w : World α) : List Call :=
  (Observer.process sqrt u o w).calls.drop w.calls.length

end Obs

/-- The verdicts returned by the `checkDetection` calls of a call sequence, in call order. -/
def Call.verdicts (cs : List Call) : List DetectionState :=
  cs.filterMap fun c =>
    match c with
    | Call.checkDetection _ s => some s
    | Call.onDetection _ => none

/-- The feature indices of the `checkDetection` calls of a call sequence, in call order. -/
def Call.checked (cs : List Call) : List Nat :=
  cs.filterMap fun c =>
    match c with
    | Call.checkDetection i _ => some i
    | Call.onDetection _ => none

/-- The feature indices of the `onDetection` calls of a call sequence, in call order. -/
def Call.detected (cs : List Call) : List Nat :=
  cs.filterMap fun c =>
    match c with
    | Call.checkDetection _ _ => none
    | Call.onDetection i => some i

/-! ## ParticleState: Lorentz factor, velocity, momentum -/

section Kin
variable {α : Type} [LinearOrderedField α]

/-- The method `getLorentzFactor`: `energy / (pmass * c_squared)`; the constant `c_squared`
of `Units.h` is a parameter. -/
def ParticleState.getLorentzFactor (c_squared : α) (s : ParticleState α) : α :=
  s.energy / (s.pmass * c_squared)

/-- The method `setLorentzFactor`: `lf = std::max(0., lf); energy = lf * pmass * c_squared`. -/
def ParticleState.setLorentzFactor (c_squared : α) (s : ParticleState α) (lf : α) :
    ParticleState α :=
  let lf := max 0 lf
  { s with energy := lf * s.pmass * c_squared }

/-- The method `getVelocity`: `direction * c_light`. -/
def ParticleState.getVelocity (c_light : α) (s : ParticleState α) : Vector3d α :=
  s.direction.mul c_light

/-- The method `getMomentum`: `direction * (energy / c_light)`. -/
def ParticleState.getMomentum (c_light : α) (s : ParticleState α) : Vector3d α :=
  s.direction.mul (s.energy / c_light)

end Kin

/-- One call of a mutating method of `ParticleState`, with its argument. -/
inductive Setter (α : Type) where
  | setId (newId : Int)
  | setEnergy (newEnergy : α)
  | setLorentzFactor (lf : α)
  | setPosition (pos : Vector3d α)
  | setDirection (dir : Vector3d α)

/-- The failure the spec names for a direction of zero magnitude. -/
inductive ParticleError where
  | DegenerateDirection
deriving DecidableEq

section Setters
variable {α : Type} [LinearOrderedField α]

/-- The state after one call of a mutating method. -/
def ParticleState.call (sqrt : α → α) (chargeOf : Int → α) (eplus c_squared : α)
    (s : ParticleState α) (m : Setter α) : ParticleState α :=
  match m with
  | Setter.setId newId => s.setId chargeOf eplus newId
  | Setter.setEnergy newEnergy => s.setEnergy newEnergy
  | Setter.setLorentzFactor lf => s.setLorentzFactor c_squared lf
  | Setter.setPosition pos => s.setPosition pos
  | Setter.setDirection dir => s.setDirection sqrt dir

/-- What the spec words for `setDirection`, for comparison with the method of the source:
"direction of zero magnitude is a contract violation, fails with DegenerateDirection", and
otherwise the direction is normalized to unit length. -/
def ParticleState.setDirectionSpec (sqrt : α → α) (s : ParticleState α) (dir : Vector3d α) :
    Except ParticleError (ParticleState α) :=
  if dir = ⟨0, 0, 0⟩ then Except.error ParticleError.DegenerateDirection
  else Except.ok { s with direction := dir.div (dir.getR sqrt) }

/-- What the spec words for the constructor, for comparison: a zero direction is rejected
like in `setDirection`. -/
def ParticleState.ctorSpec (sqrt : α → α) (chargeOf : Int → α) (eplus : α)
    (raw : ParticleState α) (id : Int) (E : α) (pos dir : Vector3d α) :
    Except ParticleError (ParticleState α) :=
  (((raw.setId chargeOf eplus id).setEnergy E).setPosition pos).setDirectionSpec sqrt dir

end Setters

/-! ## Output modules of OutputTXT.cpp -/

/-- Modelled from the spec: `Candidate::hasProperty`, which is not part of the sources; the
property map holds the name as a key. -/
def Candidate.hasProperty {α : Type} (c : Candidate α) (name : String) : Bool :=
  c.properties.any fun p => p.1 == name

/-- Modelled from the spec: `Candidate::removeProperty`, which is not part of the sources;
the entry of the map under the name is erased. -/
def Candidate.removeProperty {α : Type} (c : Candidate α) (name : String) : Candidate α :=
  { c with properties := c.properties.filter fun p => p.1 != name }

section Output
variable {α : Type} [LinearOrderedField α]

/-- The method `ConditionalOutput::process`; `fname` is the file behind `fout` and
`condition` the data member of that name. -/
def ConditionalOutput.process (u : Units α) (fname condition : String) (c : Candidate α)
    (out : List (String × List (Field α))) : Candidate α × List (String × List (Field α)) :=
  if !(c.hasProperty condition) then (c, out)
  else
    let c := c.removeProperty condition
    let pos := c.current.getPosition.div u.Mpc
    let ipos := c.source.getPosition.div u.Mpc
    let dir := c.current.getDirection
    let idir := c.source.getDirection
    (c, out ++ [(fname,
      [Field.real (c.getTrajectoryLength / u.Mpc),
       Field.int c.current.getId,
       Field.int c.source.getId,
       Field.real (c.current.getEnergy / u.eV),
       Field.real (c.source.getEnergy / u.eV),
       Field.real pos.x, Field.real pos.y, Field.real pos.z,
       Field.real ipos.x, Field.real ipos.y, Field.real ipos.z,
       Field.real dir.x, Field.real dir.y, Field.real dir.z,
       Field.real idir.x, Field.real idir.y, Field.real idir.z,
       Field.real c.getRedshift])])

/-- The method `EventOutput1D::process`. -/
def EventOutput1D.process (u : Units α) (fname : String) (c : Candidate α)
    (out : List (String × List (Field α))) : Candidate α × List (String × List (Field α)) :=
  if !(c.hasProperty "Detected") then (c, out)
  else
    let c := c.removeProperty "Detected"
    (c, out ++ [(fname,
      [Field.int c.current.getId,
       Field.real (c.current.getEnergy / u.eV),
       Field.real (c.source.getPosition.x / u.Mpc),
       Field.int c.source.getId,
       Field.real (c.source.getEnergy / u.eV)])])

/-- What the class documentation of `EventOutput1D` in `OutputTXT.h` words, for comparison
with the method of the source: "Records particles that are inactive and have the property
'Detected'". -/
def EventOutput1D.processDoc (u : Units α) (fname : String) (c : Candidate α)
    (out : List (String × List (Field α))) : Candidate α × List (String × List (Field α)) :=
  if c.active then (c, out) else EventOutput1D.process u fname c out

/-- The contract "no duplicate recording" for an output module `proc` that writes to the
file `fname` and acts on the property `name`. With the property present the call appends
exactly one record to the file and removes the property; without it the call changes
nothing; a second call right after the first changes nothing more, so two calls append at
most one record; and apart from the entries under `name` the candidate stays as it was. -/
def RecordsOnce
    (proc : Candidate α → List (String × List (Field α)) →
      Candidate α × List (String × List (Field α)))
    (fname name : String) : Prop :=
  ∀ (c : Candidate α) (out : List (String × List (Field α))),
    (c.hasProperty name = true →
      (∃ r, (proc c out).2 = out ++ [(fname, r)]) ∧
      (proc c out).1 = c.removeProperty name ∧
      (proc c out).1.hasProperty name = false) ∧
    (c.hasProperty name = false → proc c out = (c, out)) ∧
    proc (proc c out).1 (proc c out).2 = proc c out ∧
    (proc (proc c out).1 (proc c out).2).2.length ≤ out.length + 1 ∧
    ((proc c out).1.source = c.source ∧ (proc c out).1.current = c.current ∧
      (proc c out).1.previous = c.previous ∧
      (proc c out).1.trajectoryLength = c.trajectoryLength ∧
      (proc c out).1.redshift = c.redshift ∧ (proc c out).1.active = c.active ∧
      (proc c out).1.nextStep = c.nextStep ∧
      ∀ p : String × String, p.1 ≠ name →
        (p ∈ (proc c out).1.properties ↔ p ∈ c.properties))

end Output

/-! ## Sample inputs -/

section Samples
variable {α : Type} [LinearOrderedField α]

/-- A particle of type `id` with unit energy at the point `(x, 0, 0)`, heading towards
negative `x`. -/
def ParticleState.onAxis (id : Int) (x : α) : ParticleState α :=
  { id := id, energy := 1, position := ⟨x, 0, 0⟩, direction := ⟨-1, 0, 0⟩, pmass := 0,
    charge := 0 }

/-- An active candidate of type `id` that moved from `(xprev, 0, 0)` to `(x, 0, 0)`, with no
properties and no step bound proposed yet. -/
def Candidate.onAxis (id : Int) (x xprev : α) : Candidate α :=
  { source := ParticleState.onAxis id xprev, current := ParticleState.onAxis id x,
    previous := ParticleState.onAxis id xprev, trajectoryLength := 0, redshift := 0,
    active := true, properties := [], nextStep := ⊤ }

/-- A world holding the candidate, with nothing written and no call made. -/
def World.start (c : Candidate α) : World α :=
  { candidate := c, out := [], calls := [] }

/-- An observer that deactivates on detection, holding a point feature and a 1-D output
feature, registered in this order. -/
def Observer.pointSample (α : Type) [LinearOrderedField α] : Observer α :=
  ((Observer.ctor true).add ObserverFeature.ObserverPoint).add
    (ObserverFeature.ObserverOutput1D "events.txt")

/-- An active candidate of type `id` at `(x, 0, 0)` that carries the property "Detected". -/
def Candidate.detectedSample (id : Int) (x xprev : α) : Candidate α :=
  { Candidate.onAxis id x xprev with properties := [("Detected", "")] }

/-- Unit constants all equal to one. -/
def Units.one (α : Type) [LinearOrderedField α] : Units α :=
  { Mpc := 1, eV := 1, EeV := 1 }

end Samples

/-! # Properties -/

section Ids
variable {α : Type}

theorem toInt32_abs_eq_iff (n : Int) (h : IsInt32 n) (k : Int) (hk0 : 0 ≤ k)
    (hk : k < 2 ^ 31) : toInt32 |n| = k ↔ |n| = k := by
  unfold IsInt32 at h
  unfold toInt32
  rcases abs_cases n with ⟨h1, h2⟩ | ⟨h1, h2⟩ <;> rw [h1] <;> omega

theorem neutrinoVeto_verdict (c : Candidate α) (h : IsInt32 c.current.getId) :
    (ObserverNeutrinoVeto.checkDetection c).1 =
      if |c.current.getId| = 12 ∨ |c.current.getId| = 14 ∨ |c.current.getId| = 16
      then DetectionState.NOTHING else DetectionState.VETO := by
  have e12 := toInt32_abs_eq_iff _ h 12 (by norm_num) (by norm_num)
  have e14 := toInt32_abs_eq_iff _ h 14 (by norm_num) (by norm_num)
  have e16 := toInt32_abs_eq_iff _ h 16 (by norm_num) (by norm_num)
  simp only [ObserverNeutrinoVeto.checkDetection, e12, e14, e16]
  split_ifs <;> rfl

theorem abs_toInt32_abs (n : Int) (h : IsInt32 n) : abs (toInt32 (abs n)) = abs n := by
  unfold IsInt32 at h
  unfold toInt32
  rcases abs_cases n with ⟨h1, h2⟩ | ⟨h1, h2⟩ <;> rw [h1] <;>
    rcases abs_cases ((n + 2 ^ 31) % 2 ^ 32 - 2 ^ 31) with ⟨h3, h4⟩ | ⟨h3, h4⟩ <;>
    rcases abs_cases ((-n + 2 ^ 31) % 2 ^ 32 - 2 ^ 31) with ⟨h5, h6⟩ | ⟨h5, h6⟩ <;>
    omega

theorem hasProperty_removeProperty (c : Candidate α) (name : String) :
    (c.removeProperty name).hasProperty name = false := by
  simp [Candidate.hasProperty, Candidate.removeProperty]

theorem mem_removeProperty (c : Candidate α) (name : String) (p : String × String)
    (hp : p.1 ≠ name) : p ∈ (c.removeProperty name).properties ↔ p ∈ c.properties := by
  simp [Candidate.removeProperty, hp]

theorem recordsOnce_of_shape
    (proc : Candidate α → List (String × List (Field α)) →
      Candidate α × List (String × List (Field α)))
    (fname name : String) (rec : Candidate α → List (Field α))
    (hproc : ∀ c out, proc c out =
      if c.hasProperty name = true then
        (c.removeProperty name, out ++ [(fname, rec (c.removeProperty name))])
      else (c, out)) :
    RecordsOnce proc fname name := by
  intro c out
  have hrem := hasProperty_removeProperty c name
  cases hc : c.hasProperty name
  · have h1 : proc c out = (c, out) := by rw [hproc, hc]; simp
    refine ⟨fun h => absurd h (by simp), fun _ => h1, ?_, ?_, ?_⟩
    · rw [h1]; exact h1
    · rw [h1, h1]; exact Nat.le_succ _
    · rw [h1]
      exact ⟨rfl, rfl, rfl, rfl, rfl, rfl, rfl, fun _ _ => Iff.rfl⟩
  · have h1 : proc c out =
        (c.removeProperty name, out ++ [(fname, rec (c.removeProperty name))]) := by
      rw [hproc, hc]; simp
    have h2 : proc (c.removeProperty name)
        (out ++ [(fname, rec (c.removeProperty name))]) =
        (c.removeProperty name, out ++ [(fname, rec (c.removeProperty name))]) := by
      rw [hproc, hrem]; simp
    refine ⟨fun _ => ?_, fun h => absurd h (by simp), ?_, ?_, ?_⟩
    · rw [h1]
      exact ⟨⟨_, rfl⟩, rfl, hrem⟩
    · rw [h1]; exact h2
    · rw [h1]
      show (proc (c.removeProperty name)
        (out ++ [(fname, rec (c.removeProperty name))])).2.length ≤ out.length + 1
      rw [h2]
      simp
    · rw [h1]
      exact ⟨rfl, rfl, rfl, rfl, rfl, rfl, rfl, fun p hp => mem_removeProperty c name p hp⟩

end Ids

section Lemmas
variable {α : Type} [LinearOrderedField α]

theorem checkDetection_frame (sqrt : α → α) (f : ObserverFeature α) (c : Candidate α) :
    ∃ n, (f.checkDetection sqrt c).2 = { c with nextStep := n } := by
  cases f <;>
    simp only [ObserverFeature.checkDetection, ObserverSmallSphere.checkDetection,
      ObserverLargeSphere.checkDetection, ObserverPoint.checkDetection,
      ObserverRedshiftWindow.checkDetection, ObserverNeutrinoVeto.checkDetection,
      ObserverChargedLeptonVeto.checkDetection, ObserverPhotonVeto.checkDetection,
      ObserverFeature.defaultCheckDetection, Candidate.limitNextStep] <;>
    (try split_ifs) <;> first
      | exact ⟨c.nextStep, rfl⟩
      | exact ⟨_, rfl⟩

theorem checkDetection_verdict_step (sqrt : α → α) (f : ObserverFeature α) (c : Candidate α)
    (n : WithTop α) :
    (f.checkDetection sqrt { c with nextStep := n }).1 = (f.checkDetection sqrt c).1 := by
  cases f <;>
    simp only [ObserverFeature.checkDetection, ObserverSmallSphere.checkDetection,
      ObserverLargeSphere.checkDetection, ObserverPoint.checkDetection,
      ObserverRedshiftWindow.checkDetection, ObserverNeutrinoVeto.checkDetection,
      ObserverChargedLeptonVeto.checkDetection, ObserverPhotonVeto.checkDetection,
      ObserverFeature.defaultCheckDetection, Candidate.limitNextStep,
      Candidate.getRedshift] <;>
    (try split_ifs) <;> rfl

theorem foldl_combine_veto (vs : List DetectionState) (st : DetectionState) :
    vs.foldl Observer.combine st = DetectionState.VETO ↔
      st = DetectionState.VETO ∨ DetectionState.VETO ∈ vs := by
  induction vs generalizing st with
  | nil => simp
  | cons v vs ih =>
    simp only [List.foldl_cons, ih, List.mem_cons]
    cases st <;> cases v <;> simp [Observer.combine]

theorem foldl_combine_detected (vs : List DetectionState) (st : DetectionState) :
    vs.foldl Observer.combine st = DetectionState.DETECTED ↔
      (st ≠ DetectionState.VETO ∧ DetectionState.VETO ∉ vs) ∧
        (st = DetectionState.DETECTED ∨ DetectionState.DETECTED ∈ vs) := by
  induction vs generalizing st with
  | nil => cases st <;> simp
  | cons v vs ih =>
    simp only [List.foldl_cons, ih, List.mem_cons]
    cases st <;> cases v <;> simp [Observer.combine]

theorem checkLoop_spec (sqrt : α → α) (rest : List (ObserverFeature α)) :
    ∀ (i : Nat) (st : DetectionState) (w : World α),
      (Observer.checkLoop sqrt rest i st w).1 =
          (rest.map fun f => (f.checkDetection sqrt w.candidate).1).foldl Observer.combine st ∧
      (Observer.checkLoop sqrt rest i st w).2.calls = w.calls ++
          (rest.enumFrom i).map
            (fun p => Call.checkDetection p.1 (p.2.checkDetection sqrt w.candidate).1) ∧
      (Observer.checkLoop sqrt rest i st w).2.out = w.out ∧
      ∃ n, (Observer.checkLoop sqrt rest i st w).2.candidate =
          { w.candidate with nextStep := n } := by
  induction rest with
  | nil =>
    intro i st w
    exact ⟨rfl, by simp [Observer.checkLoop], rfl, w.candidate.nextStep, rfl⟩
  | cons f rest ih =>
    intro i st w
    obtain ⟨n0, hn0⟩ := checkDetection_frame sqrt f w.candidate
    have h := ih (i + 1) (Observer.combine st (f.checkDetection sqrt w.candidate).1)
      { w with candidate := (f.checkDetection sqrt w.candidate).2,
               calls := w.calls ++ [Call.checkDetection i (f.checkDetection sqrt w.candidate).1] }
    simp only [hn0, checkDetection_verdict_step] at h
    obtain ⟨h1, h2, h3, n, h4⟩ := h
    simp only [Observer.checkLoop, hn0]
    refine ⟨?_, ?_, h3, n, ?_⟩
    · simpa using h1
    · simpa using h2
    · simpa using h4

theorem detectLoop_spec (u : Units α) (rest : List (ObserverFeature α)) :
    ∀ (i : Nat) (w : World α),
      (Observer.detectLoop u rest i w).calls = w.calls ++
          (List.range' i rest.length).map Call.onDetection ∧
      (Observer.detectLoop u rest i w).candidate = w.candidate := by
  induction rest with
  | nil => intro i w; simp [Observer.detectLoop]
  | cons f rest ih =>
    intro i w
    have hc : (f.onDetection u w.candidate w.out).1 = w.candidate := by
      cases f <;> rfl
    have h := ih (i + 1)
      { candidate := (f.onDetection u w.candidate w.out).1,
        out := (f.onDetection u w.candidate w.out).2,
        calls := w.calls ++ [Call.onDetection i] }
    simp only [Observer.detectLoop]
    refine ⟨?_, ?_⟩
    · rw [h.1]; simp [List.range'_succ]
    · rw [h.2]; exact hc

theorem verdicts_map_check {β : Type} (l : List β) (g : β → Nat) (h : β → DetectionState) :
    Call.verdicts (l.map fun p => Call.checkDetection (g p) (h p)) = l.map h := by
  induction l with
  | nil => rfl
  | cons a l ih => simpa [Call.verdicts] using ih

theorem verdicts_map_on (l : List Nat) : Call.verdicts (l.map Call.onDetection) = [] := by
  induction l with
  | nil => rfl
  | cons a l ih => simp [Call.verdicts]

theorem detected_map_check {β : Type} (l : List β) (g : β → Nat) (h : β → DetectionState) :
    Call.detected (l.map fun p => Call.checkDetection (g p) (h p)) = [] := by
  induction l with
  | nil => rfl
  | cons a l ih => simp [Call.detected]

theorem detected_map_on (l : List Nat) : Call.detected (l.map Call.onDetection) = l := by
  induction l with
  | nil => rfl
  | cons a l ih => simpa [Call.detected] using ih

theorem checked_map_check {β : Type} (l : List β) (g : β → Nat) (h : β → DetectionState) :
    Call.checked (l.map fun p => Call.checkDetection (g p) (h p)) = l.map g := by
  induction l with
  | nil => rfl
  | cons a l ih => simpa [Call.checked] using ih

theorem checked_map_on (l : List Nat) : Call.checked (l.map Call.onDetection) = [] := by
  induction l with
  | nil => rfl
  | cons a l ih => simp [Call.checked]

theorem verdicts_append (a b : List Call) :
    Call.verdicts (a ++ b) = Call.verdicts a ++ Call.verdicts b := by
  simp [Call.verdicts]

theorem detected_append (a b : List Call) :
    Call.detected (a ++ b) = Call.detected a ++ Call.detected b := by
  simp [Call.detected]

theorem checked_append (a b : List Call) :
    Call.checked (a ++ b) = Call.checked a ++ Call.checked b := by
  simp [Call.checked]

theorem map_snd_enumFrom {β γ : Type} (l : List β) (g : β → γ) :
    ∀ i : Nat, (l.enumFrom i).map (fun p => g p.2) = l.map g := by
  induction l with
  | nil => intro i; rfl
  | cons a l ih => intro i; simp [List.enumFrom, ih]

theorem map_fst_enumFrom {β : Type} (l : List β) :
    ∀ i : Nat, (l.enumFrom i).map (fun p => p.1) = List.range' i l.length := by
  induction l with
  | nil => intro i; rfl
  | cons a l ih => intro i; simp [List.enumFrom, ih, List.range'_succ]

theorem verdict_eq (sqrt : α → α) (o : Observer α) (w : World α) :
    Observer.verdict sqrt o w =
      (o.features.map fun f => (f.checkDetection sqrt w.candidate).1).foldl
        Observer.combine DetectionState.NOTHING :=
  (checkLoop_spec sqrt o.features 0 DetectionState.NOTHING w).1

theorem callsOf_eq (sqrt : α → α) (u : Units α) (o : Observer α) (w : World α) :
    Observer.callsOf sqrt u o w =
      (o.features.enumFrom 0).map
          (fun p => Call.checkDetection p.1 (p.2.checkDetection sqrt w.candidate).1) ++
        (if Observer.verdict sqrt o w = DetectionState.DETECTED then
          (List.range' 0 o.features.length).map Call.onDetection else []) := by
  obtain ⟨-, h2, -, -⟩ := checkLoop_spec sqrt o.features 0 DetectionState.NOTHING w
  have h3 := (detectLoop_spec u o.features 0
    (Observer.checkLoop sqrt o.features 0 DetectionState.NOTHING w).2).1
  unfold Observer.callsOf Observer.process Observer.verdict
  by_cases hv : (Observer.checkLoop sqrt o.features 0 DetectionState.NOTHING w).1 =
      DetectionState.DETECTED
  · cases hm : o.makeInactive
    · simp only [hv, if_true, Bool.false_eq_true, if_false, h3, h2, List.append_assoc,
        List.drop_left]
    · simp only [hv, if_true, h3, h2, List.append_assoc, List.drop_left]
  · simp only [hv, if_false, h2, List.drop_left, List.append_nil]

theorem verdicts_callsOf (sqrt : α → α) (u : Units α) (o : Observer α) (w : World α) :
    Call.verdicts (Observer.callsOf sqrt u o w) =
      o.features.map fun f => (f.checkDetection sqrt w.candidate).1 := by
  rw [callsOf_eq, verdicts_append, verdicts_map_check]
  rw [map_snd_enumFrom o.features (fun f => (f.checkDetection sqrt w.candidate).1) 0]
  split_ifs
  · rw [verdicts_map_on, List.append_nil]
  · simp [Call.verdicts]

theorem detected_callsOf (sqrt : α → α) (u : Units α) (o : Observer α) (w : World α) :
    Call.detected (Observer.callsOf sqrt u o w) =
      if Observer.verdict sqrt o w = DetectionState.DETECTED then
        List.range o.features.length else [] := by
  rw [callsOf_eq, detected_append, detected_map_check]
  split_ifs
  · rw [detected_map_on, List.nil_append, List.range_eq_range']
  · rfl

theorem process_candidate (sqrt : α → α) (u : Units α) (o : Observer α) (w : World α) :
    ∃ n, (Observer.process sqrt u o w).candidate =
      { w.candidate with
        nextStep := n
        active := if Observer.verdict sqrt o w = DetectionState.DETECTED ∧ o.makeInactive = true
          then false else w.candidate.active } := by
  obtain ⟨-, -, -, n, h4⟩ := checkLoop_spec sqrt o.features 0 DetectionState.NOTHING w
  have h5 := (detectLoop_spec u o.features 0
    (Observer.checkLoop sqrt o.features 0 DetectionState.NOTHING w).2).2
  refine ⟨n, ?_⟩
  unfold Observer.process Observer.verdict
  by_cases hv : (Observer.checkLoop sqrt o.features 0 DetectionState.NOTHING w).1 =
      DetectionState.DETECTED
  · cases hm : o.makeInactive
    · simp only [hv, if_true, Bool.false_eq_true, if_false, and_false, h5, h4]
    · simp only [hv, if_true, and_self, h5, h4, Candidate.setActive]
  · simp only [hv, if_false, false_and, h4]

theorem process_out_of_not_detected (sqrt : α → α) (u : Units α) (o : Observer α) (w : World α)
    (h : Observer.verdict sqrt o w ≠ DetectionState.DETECTED) :
    (Observer.process sqrt u o w).out = w.out := by
  obtain ⟨-, -, h3, -⟩ := checkLoop_spec sqrt o.features 0 DetectionState.NOTHING w
  unfold Observer.verdict at h
  unfold Observer.process
  simp only [h, if_false, h3]

theorem smallSphere_verdict (sqrt : α → α) (center : Vector3d α) (radius : α)
    (c : Candidate α) :
    (ObserverSmallSphere.checkDetection sqrt center radius c).1 =
      if (c.current.getPosition.sub center).getR sqrt ≤ radius ∧
          radius < (c.previous.getPosition.sub center).getR sqrt
      then DetectionState.DETECTED else DetectionState.NOTHING := by
  simp only [ObserverSmallSphere.checkDetection, Candidate.limitNextStep]
  by_cases h1 : (c.current.getPosition.sub center).getR sqrt > radius
  · rw [if_pos h1, if_neg (fun h => absurd h.1 (not_le.mpr h1))]
  · rw [if_neg h1]
    by_cases h2 : (c.previous.getPosition.sub center).getR sqrt ≤ radius
    · rw [if_pos h2, if_neg (fun h => absurd h.2 (not_lt.mpr h2))]
    · rw [if_neg h2, if_pos ⟨not_lt.mp h1, not_le.mp h2⟩]

theorem largeSphere_verdict (sqrt : α → α) (center : Vector3d α) (radius : α)
    (c : Candidate α) :
    (ObserverLargeSphere.checkDetection sqrt center radius c).1 =
      if radius ≤ (c.current.getPosition.sub center).getR sqrt ∧
          (c.previous.getPosition.sub center).getR sqrt < radius
      then DetectionState.DETECTED else DetectionState.NOTHING := by
  simp only [ObserverLargeSphere.checkDetection, Candidate.limitNextStep]
  by_cases h1 : (c.current.getPosition.sub center).getR sqrt < radius
  · rw [if_pos h1, if_neg (fun h => absurd h.1 (not_le.mpr h1))]
  · rw [if_neg h1]
    by_cases h2 : (c.previous.getPosition.sub center).getR sqrt ≥ radius
    · rw [if_pos h2, if_neg (fun h => absurd h.2 (not_lt.mpr h2))]
    · rw [if_neg h2, if_pos ⟨not_lt.mp h1, not_le.mp h2⟩]

theorem smallSphere_candidate (sqrt : α → α) (center : Vector3d α) (radius : α)
    (c : Candidate α) :
    (ObserverSmallSphere.checkDetection sqrt center radius c).2 =
      c.limitNextStep |(c.current.getPosition.sub center).getR sqrt - radius| := by
  simp only [ObserverSmallSphere.checkDetection]
  split_ifs <;> rfl

theorem largeSphere_candidate (sqrt : α → α) (center : Vector3d α) (radius : α)
    (c : Candidate α) :
    (ObserverLargeSphere.checkDetection sqrt center radius c).2 =
      c.limitNextStep |radius - (c.current.getPosition.sub center).getR sqrt| := by
  simp only [ObserverLargeSphere.checkDetection]
  split_ifs <;> rfl

theorem sumsq_nonneg (a b c : α) : 0 ≤ a * a + b * b + c * c :=
  add_nonneg (add_nonneg (mul_self_nonneg a) (mul_self_nonneg b)) (mul_self_nonneg c)

theorem dot_le_sqrt (p1 p2 p3 q1 q2 q3 : ℝ) :
    p1 * q1 + p2 * q2 + p3 * q3 ≤
      Real.sqrt (p1 * p1 + p2 * p2 + p3 * p3) * Real.sqrt (q1 * q1 + q2 * q2 + q3 * q3) := by
  rw [← Real.sqrt_mul (sumsq_nonneg p1 p2 p3)]
  apply Real.le_sqrt_of_sq_le
  nlinarith [sq_nonneg (p1 * q2 - p2 * q1), sq_nonneg (p1 * q3 - p3 * q1),
    sq_nonneg (p2 * q3 - p3 * q2)]

theorem sqrt_triangle (p1 p2 p3 q1 q2 q3 : ℝ) :
    Real.sqrt ((p1 + q1) * (p1 + q1) + (p2 + q2) * (p2 + q2) + (p3 + q3) * (p3 + q3)) ≤
      Real.sqrt (p1 * p1 + p2 * p2 + p3 * p3) + Real.sqrt (q1 * q1 + q2 * q2 + q3 * q3) := by
  rw [Real.sqrt_le_iff]
  have hP := Real.sqrt_nonneg (p1 * p1 + p2 * p2 + p3 * p3)
  have hQ := Real.sqrt_nonneg (q1 * q1 + q2 * q2 + q3 * q3)
  have hP2 := Real.mul_self_sqrt (sumsq_nonneg p1 p2 p3)
  have hQ2 := Real.mul_self_sqrt (sumsq_nonneg q1 q2 q3)
  have hd := dot_le_sqrt p1 p2 p3 q1 q2 q3
  refine ⟨by positivity, ?_⟩
  nlinarith

theorem getR_displaced (p center δ : Vector3d ℝ) :
    (p.sub center).getR Real.sqrt - δ.getR Real.sqrt ≤
      ((p.add δ).sub center).getR Real.sqrt := by
  have h := sqrt_triangle (p.x + δ.x - center.x) (p.y + δ.y - center.y) (p.z + δ.z - center.z)
    (-δ.x) (-δ.y) (-δ.z)
  rw [show p.x + δ.x - center.x + -δ.x = p.x - center.x by ring,
    show p.y + δ.y - center.y + -δ.y = p.y - center.y by ring,
    show p.z + δ.z - center.z + -δ.z = p.z - center.z by ring,
    show -δ.x * -δ.x = δ.x * δ.x by ring, show -δ.y * -δ.y = δ.y * δ.y by ring,
    show -δ.z * -δ.z = δ.z * δ.z by ring] at h
  simp only [Vector3d.getR, Vector3d.sub, Vector3d.add]
  linarith

theorem chargedLeptonVeto_verdict (c : Candidate α) (h : IsInt32 c.current.getId) :
    (ObserverChargedLeptonVeto.checkDetection c).1 =
      if |c.current.getId| = 11 ∨ |c.current.getId| = 13 ∨ |c.current.getId| = 15
      then DetectionState.NOTHING else DetectionState.VETO := by
  have e15 := toInt32_abs_eq_iff _ h 15 (by norm_num) (by norm_num)
  have hb : |(if toInt32 |c.current.getId| = 15 then (1 : α) else 0)| ≠ 0 ↔
      |c.current.getId| = 15 := by
    rw [← e15]
    split_ifs with h15
    · simp [h15]
    · simp [h15]
  simp only [ObserverChargedLeptonVeto.checkDetection, abs_toInt32_abs _ h, hb]
  split_ifs <;> rfl

theorem sumsq_pos_of_ne (v : Vector3d ℝ) (hv : v ≠ ⟨0, 0, 0⟩) :
    0 < v.x * v.x + v.y * v.y + v.z * v.z := by
  rcases lt_or_eq_of_le (sumsq_nonneg v.x v.y v.z) with h | h
  · exact h
  · exfalso
    apply hv
    have hx : v.x = 0 := by nlinarith [mul_self_nonneg v.x, mul_self_nonneg v.y, mul_self_nonneg v.z]
    have hy : v.y = 0 := by nlinarith [mul_self_nonneg v.x, mul_self_nonneg v.y, mul_self_nonneg v.z]
    have hz : v.z = 0 := by nlinarith [mul_self_nonneg v.x, mul_self_nonneg v.y, mul_self_nonneg v.z]
    cases v
    simp only [Vector3d.mk.injEq]
    exact ⟨hx, hy, hz⟩

theorem getR_pos_of_ne (v : Vector3d ℝ) (hv : v ≠ ⟨0, 0, 0⟩) : 0 < v.getR Real.sqrt :=
  Real.sqrt_pos.mpr (sumsq_pos_of_ne v hv)

theorem getR_div_getR (v : Vector3d ℝ) (hv : v ≠ ⟨0, 0, 0⟩) :
    (v.div (v.getR Real.sqrt)).getR Real.sqrt = 1 := by
  have hr := getR_pos_of_ne v hv
  have hS := Real.mul_self_sqrt (sumsq_nonneg v.x v.y v.z)
  simp only [Vector3d.getR, Vector3d.div] at hr ⊢
  have harg : v.x / Real.sqrt (v.x * v.x + v.y * v.y + v.z * v.z) *
        (v.x / Real.sqrt (v.x * v.x + v.y * v.y + v.z * v.z)) +
      v.y / Real.sqrt (v.x * v.x + v.y * v.y + v.z * v.z) *
        (v.y / Real.sqrt (v.x * v.x + v.y * v.y + v.z * v.z)) +
      v.z / Real.sqrt (v.x * v.x + v.y * v.y + v.z * v.z) *
        (v.z / Real.sqrt (v.x * v.x + v.y * v.y + v.z * v.z)) = 1 := by
    field_simp
    nlinarith
  rw [harg, Real.sqrt_one]

theorem getR_mul_pos (v : Vector3d ℝ) (k : ℝ) (hk : 0 < k) :
    (v.mul k).getR Real.sqrt = k * v.getR Real.sqrt := by
  simp only [Vector3d.getR, Vector3d.mul]
  rw [show v.x * k * (v.x * k) + v.y * k * (v.y * k) + v.z * k * (v.z * k) =
    k * k * (v.x * v.x + v.y * v.y + v.z * v.z) by ring,
    Real.sqrt_mul (mul_self_nonneg k), Real.sqrt_mul_self hk.le]

theorem div_mul_pos (v : Vector3d ℝ) (k : ℝ) (hk : 0 < k) :
    (v.mul k).div ((v.mul k).getR Real.sqrt) = v.div (v.getR Real.sqrt) := by
  rw [getR_mul_pos v k hk]
  simp only [Vector3d.div, Vector3d.mul, Vector3d.mk.injEq]
  refine ⟨?_, ?_, ?_⟩ <;> rw [mul_comm _ k] <;> exact mul_div_mul_left _ _ hk.ne.symm

theorem checkDetection_nextStep_le (sqrt : α → α) (f : ObserverFeature α) (c : Candidate α) :
    (f.checkDetection sqrt c).2.nextStep ≤ c.nextStep := by
  cases f <;>
    simp only [ObserverFeature.checkDetection, ObserverSmallSphere.checkDetection,
      ObserverLargeSphere.checkDetection, ObserverPoint.checkDetection,
      ObserverRedshiftWindow.checkDetection, ObserverNeutrinoVeto.checkDetection,
      ObserverChargedLeptonVeto.checkDetection, ObserverPhotonVeto.checkDetection,
      ObserverFeature.defaultCheckDetection, Candidate.limitNextStep] <;>
    (try split_ifs) <;> first
      | exact le_refl _
      | exact min_le_left _ _

theorem checkLoop_nextStep (sqrt : α → α) (rest : List (ObserverFeature α)) :
    ∀ (i : Nat) (st : DetectionState) (w : World α),
      (Observer.checkLoop sqrt rest i st w).2.candidate.nextStep ≤ w.candidate.nextStep ∧
      ∀ f ∈ rest, ∀ b : WithTop α,
        (∀ n : WithTop α,
          (f.checkDetection sqrt { w.candidate with nextStep := n }).2.nextStep ≤ b) →
        (Observer.checkLoop sqrt rest i st w).2.candidate.nextStep ≤ b := by
  induction rest with
  | nil =>
    intro i st w
    exact ⟨le_refl _, fun f hf => absurd hf (List.not_mem_nil f)⟩
  | cons g rest ih =>
    intro i st w
    obtain ⟨n0, hn0⟩ := checkDetection_frame sqrt g w.candidate
    have h := ih (i + 1) (Observer.combine st (g.checkDetection sqrt w.candidate).1)
      { w with candidate := (g.checkDetection sqrt w.candidate).2,
               calls := w.calls ++ [Call.checkDetection i (g.checkDetection sqrt w.candidate).1] }
    have hle := checkDetection_nextStep_le sqrt g w.candidate
    simp only [Observer.checkLoop]
    refine ⟨le_trans h.1 hle, ?_⟩
    intro f hf b hb
    rcases List.mem_cons.mp hf with hfg | hfr
    · subst hfg
      exact le_trans h.1 (hb w.candidate.nextStep)
    · refine h.2 f hfr b ?_
      intro n
      have := hb n
      simp only [hn0]
      exact this

theorem process_nextStep (sqrt : α → α) (u : Units α) (o : Observer α) (w : World α) :
    (Observer.process sqrt u o w).candidate.nextStep =
      (Observer.checkLoop sqrt o.features 0 DetectionState.NOTHING w).2.candidate.nextStep := by
  have h5 := (detectLoop_spec u o.features 0
    (Observer.checkLoop sqrt o.features 0 DetectionState.NOTHING w).2).2
  unfold Observer.process
  by_cases hv : (Observer.checkLoop sqrt o.features 0 DetectionState.NOTHING w).1 =
      DetectionState.DETECTED
  · cases hm : o.makeInactive
    · simp only [hv, if_true, Bool.false_eq_true, if_false, h5]
    · simp only [hv, if_true, h5, Candidate.setActive]
  · simp only [hv, if_false]

theorem checked_callsOf (sqrt : α → α) (u : Units α) (o : Observer α) (w : World α) :
    Call.checked (Observer.callsOf sqrt u o w) = List.range o.features.length := by
  rw [callsOf_eq, checked_append, checked_map_check]
  rw [map_fst_enumFrom o.features 0, List.range_eq_range']
  split_ifs
  · rw [checked_map_on, List.append_nil]
  · simp [Call.checked]

theorem onDetection_out_append (u : Units α) (f : ObserverFeature α) (c : Candidate α)
    (acc : List (String × List (Field α))) :
    (f.onDetection u c acc).2 = acc ++ (f.onDetection u c []).2 := by
  cases f <;>
    simp [ObserverFeature.onDetection, ObserverOutput3D.onDetection,
      ObserverOutput1D.onDetection, ObserverFeature.defaultOnDetection]

theorem onDetection_out_step (u : Units α) (f : ObserverFeature α) (c : Candidate α)
    (n : WithTop α) (acc : List (String × List (Field α))) :
    (f.onDetection u { c with nextStep := n } acc).2 = (f.onDetection u c acc).2 := by
  cases f <;> rfl

theorem detectLoop_out (u : Units α) (rest : List (ObserverFeature α)) :
    ∀ (i : Nat) (w : World α),
      (Observer.detectLoop u rest i w).out =
        w.out ++ (rest.map fun f => (f.onDetection u w.candidate []).2).flatten := by
  induction rest with
  | nil => intro i w; simp [Observer.detectLoop]
  | cons f rest ih =>
    intro i w
    have hc : (f.onDetection u w.candidate w.out).1 = w.candidate := by
      cases f <;> rfl
    simp only [Observer.detectLoop]
    rw [ih, hc, onDetection_out_append u f w.candidate w.out]
    simp [List.append_assoc]

theorem process_out_of_detected (sqrt : α → α) (u : Units α) (o : Observer α) (w : World α)
    (h : Observer.verdict sqrt o w = DetectionState.DETECTED) :
    (Observer.process sqrt u o w).out =
      w.out ++ (o.features.map fun f => (f.onDetection u w.candidate []).2).flatten := by
  obtain ⟨-, -, h3, n, h4⟩ := checkLoop_spec sqrt o.features 0 DetectionState.NOTHING w
  have h5 := detectLoop_out u o.features 0
    (Observer.checkLoop sqrt o.features 0 DetectionState.NOTHING w).2
  rw [h3, h4] at h5
  simp only [onDetection_out_step] at h5
  unfold Observer.verdict at h
  unfold Observer.process
  cases hm : o.makeInactive
  · simp only [h, if_true, Bool.false_eq_true, if_false, h5]
  · simp only [h, if_true, h5]

end Lemmas


/-! ## Observer.process: combination of the verdicts -/

section Claims
variable {α : Type} [LinearOrderedField α]

/-- Claim C1: the verdict `Observer::process` holds after its first loop is VETO exactly when
some `checkDetection` call of the run returned VETO, DETECTED exactly when none returned VETO
and some returned DETECTED, NOTHING exactly when none returned VETO or DETECTED; and an
observer holding the same features in another order reaches the same verdict. -/
theorem Observer.process_combines_verdicts (sqrt : α → α) (u : Units α) (o : Observer α)
    (w : World α) :
    (Observer.verdict sqrt o w = DetectionState.VETO ↔
      DetectionState.VETO ∈ Call.verdicts (Observer.callsOf sqrt u o w)) ∧
    (Observer.verdict sqrt o w = DetectionState.DETECTED ↔
      DetectionState.VETO ∉ Call.verdicts (Observer.callsOf sqrt u o w) ∧
        DetectionState.DETECTED ∈ Call.verdicts (Observer.callsOf sqrt u o w)) ∧
    (Observer.verdict sqrt o w = DetectionState.NOTHING ↔
      DetectionState.VETO ∉ Call.verdicts (Observer.callsOf sqrt u o w) ∧
        DetectionState.DETECTED ∉ Call.verdicts (Observer.callsOf sqrt u o w)) ∧
    (∀ o2 : Observer α, o2.features.Perm o.features →
      Observer.verdict sqrt o2 w = Observer.verdict sqrt o w) := by
  have hV := foldl_combine_veto
    (o.features.map fun f => (f.checkDetection sqrt w.candidate).1) DetectionState.NOTHING
  have hD := foldl_combine_detected
    (o.features.map fun f => (f.checkDetection sqrt w.candidate).1) DetectionState.NOTHING
  rw [← verdict_eq] at hV hD
  rw [verdicts_callsOf]
  have hV2 : Observer.verdict sqrt o w = DetectionState.VETO ↔ DetectionState.VETO ∈
      o.features.map fun f => (f.checkDetection sqrt w.candidate).1 := by
    rw [hV]; simp
  have hD2 : Observer.verdict sqrt o w = DetectionState.DETECTED ↔
      DetectionState.VETO ∉ (o.features.map fun f => (f.checkDetection sqrt w.candidate).1) ∧
      DetectionState.DETECTED ∈
        (o.features.map fun f => (f.checkDetection sqrt w.candidate).1) := by
    rw [hD]; simp
  refine ⟨hV2, hD2, ?_, ?_⟩
  · constructor
    · intro h
      have hnv : DetectionState.VETO ∉
          (o.features.map fun f => (f.checkDetection sqrt w.candidate).1) := by
        intro hv
        have := hV2.mpr hv
        rw [h] at this
        exact absurd this (by decide)
      refine ⟨hnv, fun hd => ?_⟩
      have := hD2.mpr ⟨hnv, hd⟩
      rw [h] at this
      exact absurd this (by decide)
    · rintro ⟨h1, h2⟩
      cases hv : Observer.verdict sqrt o w with
      | NOTHING => rfl
      | VETO => exact absurd (hV2.mp hv) h1
      | DETECTED => exact absurd (hD2.mp hv).2 h2
  · intro o2 hp
    have hp2 : (o2.features.map fun f => (f.checkDetection sqrt w.candidate).1).Perm
        (o.features.map fun f => (f.checkDetection sqrt w.candidate).1) := hp.map _
    have hV3 := foldl_combine_veto
      (o2.features.map fun f => (f.checkDetection sqrt w.candidate).1) DetectionState.NOTHING
    have hD3 := foldl_combine_detected
      (o2.features.map fun f => (f.checkDetection sqrt w.candidate).1) DetectionState.NOTHING
    rw [← verdict_eq] at hV3 hD3
    rw [hp2.mem_iff] at hV3 hD3
    rw [hp2.mem_iff] at hD3
    cases hv : Observer.verdict sqrt o w with
    | VETO => exact hV3.mpr (hV.mp hv)
    | DETECTED => exact hD3.mpr (hD.mp hv)
    | NOTHING =>
      cases hv2 : Observer.verdict sqrt o2 w with
      | NOTHING => rfl
      | VETO => rw [hV.mpr (hV3.mp hv2)] at hv; exact absurd hv (by decide)
      | DETECTED => rw [hD.mpr (hD3.mp hv2)] at hv; exact absurd hv (by decide)

theorem Observer.process_combines_verdicts_witness :
    Observer.verdict Real.sqrt
        (((Observer.ctor true).add ObserverFeature.ObserverPhotonVeto).add
          ObserverFeature.ObserverPoint)
        (World.start (Candidate.onAxis 2212 (-1 : ℝ) 1)) =
      Observer.verdict Real.sqrt
        (((Observer.ctor true).add ObserverFeature.ObserverPoint).add
          ObserverFeature.ObserverPhotonVeto)
        (World.start (Candidate.onAxis 2212 (-1 : ℝ) 1)) ∧
    Observer.verdict Real.sqrt
        (((Observer.ctor true).add ObserverFeature.ObserverPoint).add
          ObserverFeature.ObserverPhotonVeto)
        (World.start (Candidate.onAxis 2212 (-1 : ℝ) 1)) = DetectionState.VETO := by
  have h := Observer.process_combines_verdicts Real.sqrt (Units.one ℝ)
    (((Observer.ctor true).add ObserverFeature.ObserverPoint).add
      ObserverFeature.ObserverPhotonVeto)
    (World.start (Candidate.onAxis 2212 (-1 : ℝ) 1))
  refine ⟨h.2.2.2 _ (List.Perm.swap _ _ []), h.1.mpr ?_⟩
  rw [verdicts_callsOf]
  simp [Observer.ctor, Observer.add, ObserverFeature.checkDetection,
    ObserverPhotonVeto.checkDetection, World.start, Candidate.onAxis, ParticleState.onAxis,
    ParticleState.getId]

/-- Claim C2: when the verdict after the first loop is DETECTED, `Observer::process` runs
`onDetection` once for each registered feature, in registration order: the feature indices of
the `onDetection` calls of the run are 0, 1, ..., n-1, all of them come after the
`checkDetection` calls, and the output files hold, after what they held before, what the hooks
of the features write for this candidate, feature by feature in registration order. So every
registered `ObserverOutput3D` and `ObserverOutput1D` has its record of the candidate in its
file. Afterwards the candidate is inactive if the observer was built with
`makeInactive = true` and has its previous active flag if it was built with
`makeInactive = false`; the particle states, trajectory length, redshift and properties are as
before. -/
theorem Observer.process_on_detection (sqrt : α → α) (u : Units α) (o : Observer α)
    (w : World α) (h : Observer.verdict sqrt o w = DetectionState.DETECTED) :
    Call.detected (Observer.callsOf sqrt u o w) = List.range o.features.length ∧
    (o.makeInactive = true → (Observer.process sqrt u o w).candidate.active = false) ∧
    (o.makeInactive = false →
      (Observer.process sqrt u o w).candidate.active = w.candidate.active) ∧
    Observer.callsOf sqrt u o w =
      (o.features.enumFrom 0).map
          (fun p => Call.checkDetection p.1 (p.2.checkDetection sqrt w.candidate).1) ++
        (List.range o.features.length).map Call.onDetection ∧
    (Observer.process sqrt u o w).out =
      w.out ++ (o.features.map fun f => (f.onDetection u w.candidate []).2).flatten ∧
    (∀ fname : String, ObserverFeature.ObserverOutput1D fname ∈ o.features →
      (fname,
        [Field.int w.candidate.current.getId,
         Field.real (w.candidate.current.getEnergy / u.EeV),
         Field.real (w.candidate.getTrajectoryLength / u.Mpc),
         Field.int w.candidate.source.getId,
         Field.real (w.candidate.source.getEnergy / u.EeV)]) ∈
        (Observer.process sqrt u o w).out) ∧
    (∀ fname : String, ObserverFeature.ObserverOutput3D fname ∈ o.features →
      (fname,
        [Field.real (w.candidate.getTrajectoryLength / u.Mpc),
         Field.int w.candidate.current.getId,
         Field.int w.candidate.source.getId,
         Field.real (w.candidate.current.getEnergy / u.eV),
         Field.real (w.candidate.source.getEnergy / u.eV),
         Field.real (w.candidate.current.getPosition.x / u.Mpc),
         Field.real (w.candidate.current.getPosition.y / u.Mpc),
         Field.real (w.candidate.current.getPosition.z / u.Mpc),
         Field.real (w.candidate.source.getPosition.x / u.Mpc),
         Field.real (w.candidate.source.getPosition.y / u.Mpc),
         Field.real (w.candidate.source.getPosition.z / u.Mpc),
         Field.real w.candidate.current.getDirection.x,
         Field.real w.candidate.current.getDirection.y,
         Field.real w.candidate.current.getDirection.z,
         Field.real w.candidate.source.getDirection.x,
         Field.real w.candidate.source.getDirection.y,
         Field.real w.candidate.source.getDirection.z,
         Field.real w.candidate.getRedshift]) ∈
        (Observer.process sqrt u o w).out) ∧
    ((Observer.process sqrt u o w).candidate.source = w.candidate.source ∧
      (Observer.process sqrt u o w).candidate.current = w.candidate.current ∧
      (Observer.process sqrt u o w).candidate.previous = w.candidate.previous ∧
      (Observer.process sqrt u o w).candidate.trajectoryLength =
        w.candidate.trajectoryLength ∧
      (Observer.process sqrt u o w).candidate.redshift = w.candidate.redshift ∧
      (Observer.process sqrt u o w).candidate.properties = w.candidate.properties) := by
  obtain ⟨n, hn⟩ := process_candidate sqrt u o w
  have hout := process_out_of_detected sqrt u o w h
  refine ⟨?_, ?_, ?_, ?_, hout, ?_, ?_, ?_⟩
  · rw [detected_callsOf, if_pos h]
  · intro hm
    rw [hn]
    simp [h, hm]
  · intro hm
    rw [hn]
    simp [hm]
  · rw [callsOf_eq, if_pos h, List.range_eq_range']
  · intro fname hmem
    rw [hout]
    refine List.mem_append_right _ (List.mem_flatten.mpr ⟨_, List.mem_map.mpr ⟨_, hmem, rfl⟩, ?_⟩)
    simp [ObserverFeature.onDetection, ObserverOutput1D.onDetection]
  · intro fname hmem
    rw [hout]
    refine List.mem_append_right _ (List.mem_flatten.mpr ⟨_, List.mem_map.mpr ⟨_, hmem, rfl⟩, ?_⟩)
    simp [ObserverFeature.onDetection, ObserverOutput3D.onDetection, Vector3d.div]
  · rw [hn]
    exact ⟨rfl, rfl, rfl, rfl, rfl, rfl⟩

theorem Observer.process_on_detection_witness :
    Observer.verdict Real.sqrt (Observer.pointSample ℝ)
        (World.start (Candidate.onAxis 22 0 1)) = DetectionState.DETECTED ∧
    Call.detected (Observer.callsOf Real.sqrt (Units.one ℝ) (Observer.pointSample ℝ)
        (World.start (Candidate.onAxis 22 0 1))) = [0, 1] ∧
    (Observer.process Real.sqrt (Units.one ℝ) (Observer.pointSample ℝ)
        (World.start (Candidate.onAxis 22 0 1))).candidate.active = false ∧
    Observer.callsOf Real.sqrt (Units.one ℝ) (Observer.pointSample ℝ)
        (World.start (Candidate.onAxis 22 0 1)) =
      [Call.checkDetection 0 DetectionState.DETECTED,
       Call.checkDetection 1 DetectionState.NOTHING,
       Call.onDetection 0, Call.onDetection 1] ∧
    (Observer.process Real.sqrt (Units.one ℝ) (Observer.pointSample ℝ)
        (World.start (Candidate.onAxis 22 0 1))).out =
      [("events.txt",
        [Field.int 22, Field.real 1, Field.real 0, Field.int 22, Field.real 1])] := by
  have hv : Observer.verdict Real.sqrt (Observer.pointSample ℝ)
      (World.start (Candidate.onAxis 22 0 1)) = DetectionState.DETECTED := by
    simp [Observer.verdict, Observer.pointSample, Observer.ctor, Observer.add,
      Observer.checkLoop, ObserverFeature.checkDetection, ObserverPoint.checkDetection,
      ObserverFeature.defaultCheckDetection, Observer.combine, World.start, Candidate.onAxis,
      ParticleState.onAxis, ParticleState.getPosition]
  have h := Observer.process_on_detection Real.sqrt (Units.one ℝ) (Observer.pointSample ℝ)
    (World.start (Candidate.onAxis 22 0 1)) hv
  refine ⟨hv, h.1, h.2.1 rfl, ?_, ?_⟩
  · rw [h.2.2.2.1]
    simp [Observer.pointSample, Observer.ctor, Observer.add, List.enumFrom, List.range,
      List.range.loop, ObserverFeature.checkDetection, ObserverPoint.checkDetection,
      ObserverFeature.defaultCheckDetection, World.start, Candidate.onAxis,
      ParticleState.onAxis, ParticleState.getPosition]
  · rw [h.2.2.2.2.1]
    simp [Observer.pointSample, Observer.ctor, Observer.add, ObserverFeature.onDetection,
      ObserverOutput1D.onDetection, ObserverFeature.defaultOnDetection, World.start,
      Candidate.onAxis, ParticleState.onAxis, ParticleState.getId, ParticleState.getEnergy,
      Candidate.getTrajectoryLength, Units.one]

/-- Claim C3: if some `checkDetection` call of the run returned VETO, `Observer::process`
makes no `onDetection` call, writes no record and leaves the active flag as it was, whatever
`makeInactive` is and whatever the other features returned. In particular an observer holding
an `ObserverSmallSphere` and an `ObserverNeutrinoVeto` (in either order), run on a candidate
whose previous distance to the center exceeds the radius, whose current distance does not,
and whose identifier is not a neutrino (its absolute value is none of 12, 14, 16), sees the
sphere report DETECTED and the veto report VETO, makes no `onDetection` call and leaves the
active flag as it was. -/
theorem Observer.process_veto_precedence (sqrt : α → α) (u : Units α) :
    (∀ (o : Observer α) (w : World α),
      DetectionState.VETO ∈ Call.verdicts (Observer.callsOf sqrt u o w) →
        Call.detected (Observer.callsOf sqrt u o w) = [] ∧
        (Observer.process sqrt u o w).out = w.out ∧
        (Observer.process sqrt u o w).candidate.active = w.candidate.active) ∧
    (∀ (makeInactive : Bool) (center : Vector3d α) (radius : α) (w : World α) (o : Observer α),
      (o = ((Observer.ctor makeInactive).add
              (ObserverFeature.ObserverSmallSphere center radius)).add
              ObserverFeature.ObserverNeutrinoVeto ∨
        o = ((Observer.ctor makeInactive).add ObserverFeature.ObserverNeutrinoVeto).add
              (ObserverFeature.ObserverSmallSphere center radius)) →
      radius < (w.candidate.previous.getPosition.sub center).getR sqrt →
      (w.candidate.current.getPosition.sub center).getR sqrt ≤ radius →
      IsInt32 w.candidate.current.getId →
      |w.candidate.current.getId| ≠ 12 → |w.candidate.current.getId| ≠ 14 →
      |w.candidate.current.getId| ≠ 16 →
        DetectionState.DETECTED ∈ Call.verdicts (Observer.callsOf sqrt u o w) ∧
        DetectionState.VETO ∈ Call.verdicts (Observer.callsOf sqrt u o w) ∧
        Call.detected (Observer.callsOf sqrt u o w) = [] ∧
        (Observer.process sqrt u o w).out = w.out ∧
        (Observer.process sqrt u o w).candidate.active = w.candidate.active) := by
  have gen : ∀ (o : Observer α) (w : World α),
      DetectionState.VETO ∈ Call.verdicts (Observer.callsOf sqrt u o w) →
        Call.detected (Observer.callsOf sqrt u o w) = [] ∧
        (Observer.process sqrt u o w).out = w.out ∧
        (Observer.process sqrt u o w).candidate.active = w.candidate.active := by
    intro o w hv
    rw [verdicts_callsOf] at hv
    have hveto : Observer.verdict sqrt o w = DetectionState.VETO := by
      rw [verdict_eq, foldl_combine_veto]
      exact Or.inr hv
    have hnd : Observer.verdict sqrt o w ≠ DetectionState.DETECTED := by
      rw [hveto]; decide
    obtain ⟨n, hn⟩ := process_candidate sqrt u o w
    refine ⟨?_, process_out_of_not_detected sqrt u o w hnd, ?_⟩
    · rw [detected_callsOf, if_neg hnd]
    · rw [hn]
      simp [hnd]
  refine ⟨gen, ?_⟩
  intro makeInactive center radius w o ho hprev hcur hid h12 h14 h16
  have hs : (ObserverSmallSphere.checkDetection sqrt center radius w.candidate).1 =
      DetectionState.DETECTED := by
    rw [smallSphere_verdict, if_pos ⟨hcur, hprev⟩]
  have hn : (ObserverNeutrinoVeto.checkDetection w.candidate).1 = DetectionState.VETO := by
    rw [neutrinoVeto_verdict _ hid, if_neg]
    rintro (h | h | h)
    · exact h12 h
    · exact h14 h
    · exact h16 h
  have hvs : DetectionState.DETECTED ∈ Call.verdicts (Observer.callsOf sqrt u o w) ∧
      DetectionState.VETO ∈ Call.verdicts (Observer.callsOf sqrt u o w) := by
    rw [verdicts_callsOf]
    rcases ho with ho | ho <;> subst ho <;>
      simp [Observer.ctor, Observer.add, ObserverFeature.checkDetection, hs, hn]
  exact ⟨hvs.1, hvs.2, gen o w hvs.2⟩

theorem Observer.process_veto_precedence_witness :
    (1 : ℝ) < ((World.start (Candidate.onAxis 2212 (1 / 2 : ℝ) 2)).candidate.previous.getPosition.sub
      ⟨0, 0, 0⟩).getR Real.sqrt ∧
    (Observer.process Real.sqrt (Units.one ℝ)
      (((Observer.ctor true).add (ObserverFeature.ObserverSmallSphere ⟨0, 0, 0⟩ 1)).add
        ObserverFeature.ObserverNeutrinoVeto)
      (World.start (Candidate.onAxis 2212 (1 / 2 : ℝ) 2))).candidate.active = true ∧
    Call.detected (Observer.callsOf Real.sqrt (Units.one ℝ)
      (((Observer.ctor true).add (ObserverFeature.ObserverSmallSphere ⟨0, 0, 0⟩ 1)).add
        ObserverFeature.ObserverNeutrinoVeto)
      (World.start (Candidate.onAxis 2212 (1 / 2 : ℝ) 2))) = [] := by
  have hprev : (1 : ℝ) < ((World.start (Candidate.onAxis 2212 (1 / 2 : ℝ)
      2)).candidate.previous.getPosition.sub ⟨0, 0, 0⟩).getR Real.sqrt := by
    simp only [World.start, Candidate.onAxis, ParticleState.onAxis, ParticleState.getPosition,
      Vector3d.sub, Vector3d.getR, sub_zero, mul_zero, add_zero, Real.sqrt_mul_self_eq_abs]
    norm_num
  have hcur : ((World.start (Candidate.onAxis 2212 (1 / 2 : ℝ)
      2)).candidate.current.getPosition.sub ⟨0, 0, 0⟩).getR Real.sqrt ≤ 1 := by
    simp only [World.start, Candidate.onAxis, ParticleState.onAxis, ParticleState.getPosition,
      Vector3d.sub, Vector3d.getR, sub_zero, mul_zero, add_zero, Real.sqrt_mul_self_eq_abs]
    norm_num [abs_of_pos]
  have h := (Observer.process_veto_precedence Real.sqrt (Units.one ℝ)).2 true ⟨0, 0, 0⟩ 1
    (World.start (Candidate.onAxis 2212 (1 / 2 : ℝ) 2)) _ (Or.inl rfl) hprev hcur
    (by decide) (by decide) (by decide) (by decide)
  exact ⟨hprev, h.2.2.2.2, h.2.2.1⟩

/-! ## The geometric features -/

/-- Claim C4: with `d` the distance of the current position to the center and `dprev` that of
the previous position, `ObserverSmallSphere::checkDetection` returns DETECTED exactly when
`d <= radius` and `dprev > radius`, NOTHING in every other case, and never VETO. So a
candidate stepping from distance `2 * radius` to `radius / 2` of a sphere of positive radius
is DETECTED, and a candidate that is inside both before and after the step gets NOTHING. -/
theorem smallSphere_checkDetection_verdict (sqrt : α → α) (center : Vector3d α)
    (radius : α) (c : Candidate α) :
    ((ObserverSmallSphere.checkDetection sqrt center radius c).1 = DetectionState.DETECTED ↔
      (c.current.getPosition.sub center).getR sqrt ≤ radius ∧
        (c.previous.getPosition.sub center).getR sqrt > radius) ∧
    (¬((c.current.getPosition.sub center).getR sqrt ≤ radius ∧
        (c.previous.getPosition.sub center).getR sqrt > radius) →
      (ObserverSmallSphere.checkDetection sqrt center radius c).1 = DetectionState.NOTHING) ∧
    (ObserverSmallSphere.checkDetection sqrt center radius c).1 ≠ DetectionState.VETO ∧
    (0 < radius → (c.previous.getPosition.sub center).getR sqrt = 2 * radius →
      (c.current.getPosition.sub center).getR sqrt = radius / 2 →
      (ObserverSmallSphere.checkDetection sqrt center radius c).1 = DetectionState.DETECTED) ∧
    ((c.previous.getPosition.sub center).getR sqrt ≤ radius →
      (c.current.getPosition.sub center).getR sqrt ≤ radius →
      (ObserverSmallSphere.checkDetection sqrt center radius c).1 = DetectionState.NOTHING) := by
  rw [smallSphere_verdict]
  refine ⟨?_, ?_, ?_, ?_, ?_⟩
  · split_ifs with h
    · exact ⟨fun _ => h, fun _ => rfl⟩
    · exact ⟨fun h2 => absurd h2 (by decide), fun h2 => absurd h2 h⟩
  · intro h
    rw [if_neg h]
  · split_ifs <;> decide
  · intro hr hp hc
    rw [if_pos]
    rw [hp, hc]
    constructor <;> linarith
  · intro hp _
    rw [if_neg]
    exact fun h => absurd h.2 (not_lt.mpr hp)

theorem smallSphere_checkDetection_verdict_witness :
    (ObserverSmallSphere.checkDetection Real.sqrt ⟨0, 0, 0⟩ 1
      (Candidate.onAxis 22 (1 / 2 : ℝ) 2)).1 = DetectionState.DETECTED := by
  refine (smallSphere_checkDetection_verdict Real.sqrt ⟨0, 0, 0⟩ 1
    (Candidate.onAxis 22 (1 / 2 : ℝ) 2)).2.2.2.1 one_pos ?_ ?_
  · simp only [Candidate.onAxis, ParticleState.onAxis, ParticleState.getPosition,
      Vector3d.sub, Vector3d.getR, sub_zero, mul_zero, add_zero, Real.sqrt_mul_self_eq_abs]
    norm_num
  · simp only [Candidate.onAxis, ParticleState.onAxis, ParticleState.getPosition,
      Vector3d.sub, Vector3d.getR, sub_zero, mul_zero, add_zero, Real.sqrt_mul_self_eq_abs]
    norm_num [abs_of_pos]

/-- Claim C5: for a candidate whose current distance `d` to the center exceeds the radius
`R`, after `ObserverSmallSphere::checkDetection` the next-step bound is the minimum of the
previous bound and `|d - R|`; it is `|d - R|` when the previous bound was +infinity; it is
never larger than the previous bound; and displacing the current position by any vector whose
length is at most the new bound gives a point whose distance to the center is still at least
`R` (exact real arithmetic). -/
theorem smallSphere_checkDetection_step_limit (center : Vector3d ℝ) (R : ℝ)
    (c : Candidate ℝ) (hd : (c.current.getPosition.sub center).getR Real.sqrt > R) :
    (ObserverSmallSphere.checkDetection Real.sqrt center R c).2.nextStep =
      min c.nextStep
        ((|(c.current.getPosition.sub center).getR Real.sqrt - R| : ℝ) : WithTop ℝ) ∧
    (c.nextStep = ⊤ →
      (ObserverSmallSphere.checkDetection Real.sqrt center R c).2.nextStep =
        ((|(c.current.getPosition.sub center).getR Real.sqrt - R| : ℝ) : WithTop ℝ)) ∧
    (ObserverSmallSphere.checkDetection Real.sqrt center R c).2.nextStep ≤ c.nextStep ∧
    (∀ δ : Vector3d ℝ,
      ((δ.getR Real.sqrt : ℝ) : WithTop ℝ) ≤
          (ObserverSmallSphere.checkDetection Real.sqrt center R c).2.nextStep →
        ((c.current.getPosition.add δ).sub center).getR Real.sqrt ≥ R) := by
  rw [smallSphere_candidate]
  have hstep : ∀ x : ℝ, (c.limitNextStep x).nextStep = min c.nextStep (x : WithTop ℝ) :=
    fun _ => rfl
  rw [hstep]
  refine ⟨rfl, ?_, min_le_left _ _, ?_⟩
  · intro h
    rw [h, min_eq_right le_top]
  · intro δ hδ
    have h1 := le_trans hδ (min_le_right _ _)
    rw [WithTop.coe_le_coe, abs_of_pos (sub_pos.mpr hd)] at h1
    have h2 := getR_displaced c.current.getPosition center δ
    show R ≤ _
    linarith

theorem smallSphere_checkDetection_step_limit_witness :
    (ObserverSmallSphere.checkDetection Real.sqrt ⟨0, 0, 0⟩ 1
      (Candidate.onAxis 22 (3 : ℝ) 5)).2.nextStep = ((2 : ℝ) : WithTop ℝ) := by
  have hd : ((Candidate.onAxis 22 (3 : ℝ) 5).current.getPosition.sub ⟨0, 0, 0⟩).getR
      Real.sqrt = 3 := by
    simp only [Candidate.onAxis, ParticleState.onAxis, ParticleState.getPosition,
      Vector3d.sub, Vector3d.getR, sub_zero, mul_zero, add_zero, Real.sqrt_mul_self_eq_abs]
    norm_num
  have h := (smallSphere_checkDetection_step_limit ⟨0, 0, 0⟩ 1
    (Candidate.onAxis 22 (3 : ℝ) 5) (by rw [hd]; norm_num)).2.1 rfl
  rw [h, hd]
  norm_num

/-- Claim C6: with `d` the distance of the current position to the center and `dprev` that of
the previous position, `ObserverLargeSphere::checkDetection` returns DETECTED exactly when
`d >= radius` and `dprev < radius`, NOTHING exactly when that fails, never VETO, and on every
call it passes `|radius - d|` to `limitNextStep`, so that the next-step bound becomes the
minimum of its previous value and `|radius - d|`. -/
theorem largeSphere_checkDetection_spec (sqrt : α → α) (center : Vector3d α)
    (radius : α) (c : Candidate α) :
    ((ObserverLargeSphere.checkDetection sqrt center radius c).1 = DetectionState.DETECTED ↔
      (c.current.getPosition.sub center).getR sqrt ≥ radius ∧
        (c.previous.getPosition.sub center).getR sqrt < radius) ∧
    ((ObserverLargeSphere.checkDetection sqrt center radius c).1 = DetectionState.NOTHING ↔
      ¬((c.current.getPosition.sub center).getR sqrt ≥ radius ∧
        (c.previous.getPosition.sub center).getR sqrt < radius)) ∧
    (ObserverLargeSphere.checkDetection sqrt center radius c).1 ≠ DetectionState.VETO ∧
    (ObserverLargeSphere.checkDetection sqrt center radius c).2 =
      c.limitNextStep |radius - (c.current.getPosition.sub center).getR sqrt| ∧
    (ObserverLargeSphere.checkDetection sqrt center radius c).2.nextStep =
      min c.nextStep
        ((|radius - (c.current.getPosition.sub center).getR sqrt| : α) : WithTop α) := by
  rw [largeSphere_verdict, largeSphere_candidate]
  refine ⟨?_, ?_, ?_, rfl, rfl⟩
  · split_ifs with h
    · exact ⟨fun _ => h, fun _ => rfl⟩
    · exact ⟨fun h2 => absurd h2 (by decide), fun h2 => absurd h2 h⟩
  · split_ifs with h
    · exact ⟨fun h2 => absurd h2 (by decide), fun h2 => absurd h h2⟩
    · exact ⟨fun _ => h, fun _ => rfl⟩
  · split_ifs <;> decide

/-- Claim C7: with `x` the current x-coordinate, `ObserverPoint::checkDetection` returns
DETECTED exactly when `x <= 0` and NOTHING exactly when `x > 0`; when `x > 0` it passes `x` to
`limitNextStep`, and when `x <= 0` it returns the candidate as it was. Two candidates with
the same current x-coordinate get the same verdict whatever their previous positions, so a
candidate that stays at `x <= 0` is reported DETECTED on every further pass. -/
theorem point_checkDetection_spec (c : Candidate α) :
    ((ObserverPoint.checkDetection c).1 = DetectionState.DETECTED ↔
      c.current.getPosition.x ≤ 0) ∧
    ((ObserverPoint.checkDetection c).1 = DetectionState.NOTHING ↔
      c.current.getPosition.x > 0) ∧
    (c.current.getPosition.x > 0 →
      (ObserverPoint.checkDetection c).2 = c.limitNextStep c.current.getPosition.x ∧
      (ObserverPoint.checkDetection c).2.nextStep =
        min c.nextStep ((c.current.getPosition.x : α) : WithTop α)) ∧
    (c.current.getPosition.x ≤ 0 → (ObserverPoint.checkDetection c).2 = c) ∧
    (∀ c2 : Candidate α, c2.current.getPosition.x = c.current.getPosition.x →
      (ObserverPoint.checkDetection c2).1 = (ObserverPoint.checkDetection c).1) ∧
    (c.current.getPosition.x ≤ 0 → ∀ k : Nat,
      (ObserverPoint.checkDetection
        ((fun c1 => (ObserverPoint.checkDetection c1).2)^[k] c)).1 =
          DetectionState.DETECTED) := by
  have hpos : ∀ c1 : Candidate α, c1.current.getPosition.x > 0 →
      ObserverPoint.checkDetection c1 =
        (DetectionState.NOTHING, c1.limitNextStep c1.current.getPosition.x) := by
    intro c1 h
    simp only [ObserverPoint.checkDetection, if_pos h]
  have hneg : ∀ c1 : Candidate α, c1.current.getPosition.x ≤ 0 →
      ObserverPoint.checkDetection c1 = (DetectionState.DETECTED, c1) := by
    intro c1 h
    simp only [ObserverPoint.checkDetection, if_neg (not_lt.mpr h)]
  refine ⟨?_, ?_, ?_, ?_, ?_, ?_⟩
  · rcases lt_or_le 0 c.current.getPosition.x with h | h
    · rw [hpos c h]
      exact ⟨fun h2 => absurd h2 (by simp), fun h2 => absurd h (not_lt.mpr h2)⟩
    · rw [hneg c h]
      exact ⟨fun _ => h, fun _ => rfl⟩
  · rcases lt_or_le 0 c.current.getPosition.x with h | h
    · rw [hpos c h]
      exact ⟨fun _ => h, fun _ => rfl⟩
    · rw [hneg c h]
      exact ⟨fun h2 => absurd h2 (by simp), fun h2 => absurd h2 (not_lt.mpr h)⟩
  · intro h
    rw [hpos c h]
    exact ⟨rfl, rfl⟩
  · intro h
    rw [hneg c h]
  · intro c2 h2
    rcases lt_or_le 0 c.current.getPosition.x with h | h
    · rw [hpos c h, hpos c2 (by rw [h2]; exact h)]
    · rw [hneg c h, hneg c2 (by rw [h2]; exact h)]
  · intro h k
    have hk : (fun c1 => (ObserverPoint.checkDetection c1).2)^[k] c = c := by
      induction k with
      | zero => rfl
      | succ k ih =>
        rw [Function.iterate_succ_apply', ih, hneg c h]
    rw [hk, hneg c h]

theorem point_checkDetection_spec_witness :
    (ObserverPoint.checkDetection (Candidate.onAxis 22 (3 : ℝ) 5)).2.nextStep =
        ((3 : ℝ) : WithTop ℝ) ∧
    (ObserverPoint.checkDetection (Candidate.onAxis 22 (-1 : ℝ) 1)).2 =
        Candidate.onAxis 22 (-1 : ℝ) 1 := by
  have h3 : (Candidate.onAxis 22 (3 : ℝ) 5).current.getPosition.x > 0 := by
    simp [Candidate.onAxis, ParticleState.onAxis, ParticleState.getPosition]
  have h1 : (Candidate.onAxis 22 (-1 : ℝ) 1).current.getPosition.x ≤ 0 := by
    simp [Candidate.onAxis, ParticleState.onAxis, ParticleState.getPosition]
  refine ⟨?_, (point_checkDetection_spec (Candidate.onAxis 22 (-1 : ℝ) 1)).2.2.2.1 h1⟩
  rw [((point_checkDetection_spec (Candidate.onAxis 22 (3 : ℝ) 5)).2.2.1 h3).2]
  exact min_eq_right le_top

/-! ## The species vetoes -/

/-- Claim C8: for a candidate whose current identifier `n` is an `int`,
`ObserverNeutrinoVeto::checkDetection` returns NOTHING exactly when `|n|` is 12, 14 or 16,
`ObserverChargedLeptonVeto::checkDetection` returns NOTHING exactly when `|n|` is 11, 13 or 15,
`ObserverPhotonVeto::checkDetection` returns NOTHING exactly when `n = 22`; each returns VETO
exactly when it does not return NOTHING, so none returns DETECTED, and each returns the
candidate as it was. -/
theorem speciesVeto_checkDetection_spec (c : Candidate α) (h : IsInt32 c.current.getId) :
    (((ObserverNeutrinoVeto.checkDetection c).1 = DetectionState.NOTHING ↔
        |c.current.getId| = 12 ∨ |c.current.getId| = 14 ∨ |c.current.getId| = 16) ∧
      ((ObserverNeutrinoVeto.checkDetection c).1 = DetectionState.VETO ↔
        ¬(|c.current.getId| = 12 ∨ |c.current.getId| = 14 ∨ |c.current.getId| = 16)) ∧
      (ObserverNeutrinoVeto.checkDetection c).1 ≠ DetectionState.DETECTED ∧
      (ObserverNeutrinoVeto.checkDetection c).2 = c) ∧
    (((ObserverChargedLeptonVeto.checkDetection c).1 = DetectionState.NOTHING ↔
        |c.current.getId| = 11 ∨ |c.current.getId| = 13 ∨ |c.current.getId| = 15) ∧
      ((ObserverChargedLeptonVeto.checkDetection c).1 = DetectionState.VETO ↔
        ¬(|c.current.getId| = 11 ∨ |c.current.getId| = 13 ∨ |c.current.getId| = 15)) ∧
      (ObserverChargedLeptonVeto.checkDetection c).1 ≠ DetectionState.DETECTED ∧
      (ObserverChargedLeptonVeto.checkDetection c).2 = c) ∧
    (((ObserverPhotonVeto.checkDetection c).1 = DetectionState.NOTHING ↔
        c.current.getId = 22) ∧
      ((ObserverPhotonVeto.checkDetection c).1 = DetectionState.VETO ↔
        ¬(c.current.getId = 22)) ∧
      (ObserverPhotonVeto.checkDetection c).1 ≠ DetectionState.DETECTED ∧
      (ObserverPhotonVeto.checkDetection c).2 = c) := by
  refine ⟨⟨?_, ?_, ?_, ?_⟩, ⟨?_, ?_, ?_, ?_⟩, ⟨?_, ?_, ?_, ?_⟩⟩
  · rw [neutrinoVeto_verdict c h]; split_ifs with h1 <;> simp [h1]
  · rw [neutrinoVeto_verdict c h]; split_ifs with h1 <;> simp [h1]
  · rw [neutrinoVeto_verdict c h]; split_ifs <;> decide
  · simp only [ObserverNeutrinoVeto.checkDetection]; split_ifs <;> rfl
  · rw [chargedLeptonVeto_verdict c h]; split_ifs with h1 <;> simp [h1]
  · rw [chargedLeptonVeto_verdict c h]; split_ifs with h1 <;> simp [h1]
  · rw [chargedLeptonVeto_verdict c h]; split_ifs <;> decide
  · simp only [ObserverChargedLeptonVeto.checkDetection]; split_ifs <;> rfl
  · simp only [ObserverPhotonVeto.checkDetection]; split_ifs with h1 <;> simp [h1]
  · simp only [ObserverPhotonVeto.checkDetection]; split_ifs with h1 <;> simp [h1]
  · simp only [ObserverPhotonVeto.checkDetection]; split_ifs <;> simp
  · simp only [ObserverPhotonVeto.checkDetection]; split_ifs <;> rfl

theorem speciesVeto_checkDetection_spec_witness :
    IsInt32 (Candidate.onAxis (-15) (3 : ℝ) 5).current.getId ∧
    (ObserverChargedLeptonVeto.checkDetection (Candidate.onAxis (-15) (3 : ℝ) 5)).1 =
      DetectionState.NOTHING ∧
    (ObserverNeutrinoVeto.checkDetection (Candidate.onAxis (-15) (3 : ℝ) 5)).1 =
      DetectionState.VETO ∧
    (ObserverPhotonVeto.checkDetection (Candidate.onAxis (-15) (3 : ℝ) 5)).1 =
      DetectionState.VETO := by
  have hid : IsInt32 (Candidate.onAxis (-15) (3 : ℝ) 5).current.getId := by decide
  have h := speciesVeto_checkDetection_spec (Candidate.onAxis (-15) (3 : ℝ) 5) hid
  exact ⟨hid, h.2.1.1.mpr (by decide), h.1.2.1.mpr (by decide), h.2.2.2.1.mpr (by decide)⟩

/-! ## ParticleState -/

/-- Claim C9: `setEnergy(x)` followed by `getEnergy()` gives `max(0, x)`, and `setEnergy`
leaves identifier, charge, position and direction (and the mass) as they were; so the energy
of a freshly constructed state, and of a constructed state after any sequence of `setEnergy`
calls, is not negative. -/
theorem ParticleState.setEnergy_clamps (sqrt : α → α) (chargeOf : Int → α) (eplus : α)
    (s : ParticleState α) (x : α) :
    (s.setEnergy x).getEnergy = max 0 x ∧
    (s.setEnergy x).getId = s.getId ∧
    (s.setEnergy x).getCharge = s.getCharge ∧
    (s.setEnergy x).getPosition = s.getPosition ∧
    (s.setEnergy x).getDirection = s.getDirection ∧
    (s.setEnergy x).getMass = s.getMass ∧
    (∀ (raw : ParticleState α) (id : Int) (E : α) (pos dir : Vector3d α) (xs : List α),
      (xs.foldl ParticleState.setEnergy
        (ParticleState.ctor sqrt chargeOf eplus raw id E pos dir)).getEnergy ≥ 0) := by
  refine ⟨rfl, rfl, rfl, rfl, rfl, rfl, ?_⟩
  intro raw id E pos dir xs
  have h0 : (ParticleState.ctor sqrt chargeOf eplus raw id E pos dir).getEnergy ≥ 0 :=
    le_max_left 0 E
  have hstep : ∀ (ys : List α) (t : ParticleState α), t.getEnergy ≥ 0 →
      (ys.foldl ParticleState.setEnergy t).getEnergy ≥ 0 := by
    intro ys
    induction ys with
    | nil => intro t ht; exact ht
    | cons y ys ih =>
      intro t _
      exact ih (t.setEnergy y) (le_max_left 0 y)
  exact hstep xs _ h0

/-- Claim C10: over the reals, for a nonzero vector `v`, `setDirection(v)` followed by
`getDirection()` gives `v / |v|`; that vector has length 1 and is `v` times a positive
scalar; `setDirection` stores a vector of length 1 unchanged, so setting the stored direction
again changes nothing; and `setDirection(k * v)` gives the same state as `setDirection(v)`
for every `k > 0`. -/
theorem ParticleState.setDirection_normalizes (s : ParticleState ℝ) (v : Vector3d ℝ)
    (hv : v ≠ ⟨0, 0, 0⟩) :
    (s.setDirection Real.sqrt v).getDirection = v.div (v.getR Real.sqrt) ∧
    (s.setDirection Real.sqrt v).getDirection.getR Real.sqrt = 1 ∧
    (∃ k : ℝ, 0 < k ∧ (s.setDirection Real.sqrt v).getDirection = v.mul k) ∧
    (v.getR Real.sqrt = 1 → (s.setDirection Real.sqrt v).getDirection = v) ∧
    (s.setDirection Real.sqrt v).setDirection Real.sqrt
        (s.setDirection Real.sqrt v).getDirection = s.setDirection Real.sqrt v ∧
    (∀ k : ℝ, 0 < k → s.setDirection Real.sqrt (v.mul k) = s.setDirection Real.sqrt v) := by
  have hunit : ∀ w : Vector3d ℝ, w.getR Real.sqrt = 1 → w.div (w.getR Real.sqrt) = w := by
    intro w hw
    rw [hw]
    simp [Vector3d.div]
  refine ⟨rfl, getR_div_getR v hv, ?_, ?_, ?_, ?_⟩
  · refine ⟨(v.getR Real.sqrt)⁻¹, inv_pos.mpr (getR_pos_of_ne v hv), ?_⟩
    simp only [ParticleState.setDirection, ParticleState.getDirection, Vector3d.div,
      Vector3d.mul, div_eq_mul_inv]
  · intro h1
    exact hunit v h1
  · simp only [ParticleState.setDirection, ParticleState.getDirection]
    rw [hunit _ (getR_div_getR v hv)]
  · intro k hk
    simp only [ParticleState.setDirection]
    rw [div_mul_pos v k hk]

theorem ParticleState.setDirection_normalizes_witness :
    ((ParticleState.onAxis 22 (0 : ℝ)).setDirection Real.sqrt ⟨3, 4, 0⟩).getDirection =
      ⟨3 / 5, 4 / 5, 0⟩ ∧
    ((ParticleState.onAxis 22 (0 : ℝ)).setDirection Real.sqrt ⟨3, 4, 0⟩).getDirection.getR
      Real.sqrt = 1 := by
  have hv : (⟨3, 4, 0⟩ : Vector3d ℝ) ≠ ⟨0, 0, 0⟩ := by
    simp [Vector3d.mk.injEq]
  have h := ParticleState.setDirection_normalizes (ParticleState.onAxis 22 (0 : ℝ))
    ⟨3, 4, 0⟩ hv
  have h5 : (⟨3, 4, 0⟩ : Vector3d ℝ).getR Real.sqrt = 5 := by
    simp only [Vector3d.getR]
    rw [show (3 : ℝ) * 3 + 4 * 4 + 0 * 0 = 5 * 5 by norm_num]
    exact Real.sqrt_mul_self (by norm_num)
  refine ⟨?_, h.2.1⟩
  rw [h.1, h5]
  simp [Vector3d.div]

theorem setDirection_zero_not_rejected :
    (⟨0, 0, 0⟩ : Vector3d ℝ).getR Real.sqrt = 0 ∧
    ParticleState.setDirectionSpec Real.sqrt (ParticleState.onAxis 22 (0 : ℝ)) ⟨0, 0, 0⟩ =
      Except.error ParticleError.DegenerateDirection ∧
    Except.ok (ParticleState.setDirection Real.sqrt (ParticleState.onAxis 22 (0 : ℝ))
        ⟨0, 0, 0⟩) ≠
      ParticleState.setDirectionSpec Real.sqrt (ParticleState.onAxis 22 (0 : ℝ)) ⟨0, 0, 0⟩ ∧
    (ParticleState.setDirection Real.sqrt (ParticleState.onAxis 22 (0 : ℝ))
        ⟨0, 0, 0⟩).getDirection = Vector3d.div ⟨0, 0, 0⟩ 0 ∧
    Except.ok (ParticleState.ctor Real.sqrt (fun _ => 0) 1 (ParticleState.onAxis 22 (0 : ℝ))
        22 1 ⟨0, 0, 0⟩ ⟨0, 0, 0⟩) ≠
      ParticleState.ctorSpec Real.sqrt (fun _ => 0) 1 (ParticleState.onAxis 22 (0 : ℝ))
        22 1 ⟨0, 0, 0⟩ ⟨0, 0, 0⟩ := by
  have h0 : (⟨0, 0, 0⟩ : Vector3d ℝ).getR Real.sqrt = 0 := by
    simp [Vector3d.getR]
  refine ⟨h0, ?_, ?_, ?_, ?_⟩
  · simp [ParticleState.setDirectionSpec]
  · simp [ParticleState.setDirectionSpec]
  · simp only [ParticleState.setDirection, ParticleState.getDirection, h0]
  · simp [ParticleState.ctorSpec, ParticleState.setDirectionSpec]

/-- Claim C11, amended: `setDirection` and the constructor have no failure path. For every
vector, the zero vector included, `setDirection` returns with `dir / dir.getR()` stored as
the direction and every other member as it was, and so does the constructor for its
direction argument; the method agrees with the rejecting behaviour worded in the spec
exactly on the vectors other than the zero vector. -/
theorem setDirection_has_no_failure_path (sqrt : α → α) (chargeOf : Int → α) (eplus : α)
    (s raw : ParticleState α) (id : Int) (E : α) (pos dir : Vector3d α) :
    (s.setDirection sqrt dir).getDirection = dir.div (dir.getR sqrt) ∧
    ((s.setDirection sqrt dir).getId = s.getId ∧
      (s.setDirection sqrt dir).getEnergy = s.getEnergy ∧
      (s.setDirection sqrt dir).getPosition = s.getPosition ∧
      (s.setDirection sqrt dir).getMass = s.getMass ∧
      (s.setDirection sqrt dir).getCharge = s.getCharge) ∧
    (s.setDirectionSpec sqrt dir = Except.ok (s.setDirection sqrt dir) ↔ dir ≠ ⟨0, 0, 0⟩) ∧
    (ParticleState.ctor sqrt chargeOf eplus raw id E pos dir).getDirection =
      dir.div (dir.getR sqrt) ∧
    (ParticleState.ctorSpec sqrt chargeOf eplus raw id E pos dir =
        Except.ok (ParticleState.ctor sqrt chargeOf eplus raw id E pos dir) ↔
      dir ≠ ⟨0, 0, 0⟩) := by
  have hspec : ∀ t : ParticleState α,
      (t.setDirectionSpec sqrt dir = Except.ok (t.setDirection sqrt dir) ↔
        dir ≠ ⟨0, 0, 0⟩) := by
    intro t
    unfold ParticleState.setDirectionSpec
    by_cases hd : dir = ⟨0, 0, 0⟩
    · rw [if_pos hd]
      exact ⟨fun h => Except.noConfusion h, fun h => absurd hd h⟩
    · rw [if_neg hd]
      exact ⟨fun _ => hd, fun _ => rfl⟩
  exact ⟨rfl, ⟨rfl, rfl, rfl, rfl, rfl⟩, hspec s, rfl, hspec _⟩

/-- Claim C12: for a state of rest mass `m > 0` (and `c_squared > 0`), `setLorentzFactor(lf)`
sets the energy to `max(0, lf) * m * c_squared`, which is 0 for negative `lf` and never
negative, and `getLorentzFactor()` then returns `max(0, lf)`; and for a state of energy
`E >= 0`, `setLorentzFactor(getLorentzFactor())` leaves the energy equal to `E`. -/
theorem ParticleState.lorentzFactor_roundtrip (c_squared : α) (hc : 0 < c_squared)
    (s : ParticleState α) (hm : 0 < s.getMass) (lf : α) :
    (s.setLorentzFactor c_squared lf).getEnergy = max 0 lf * s.getMass * c_squared ∧
    (lf < 0 → (s.setLorentzFactor c_squared lf).getEnergy = 0) ∧
    (s.setLorentzFactor c_squared lf).getEnergy ≥ 0 ∧
    (s.setLorentzFactor c_squared lf).getLorentzFactor c_squared = max 0 lf ∧
    (s.getEnergy ≥ 0 →
      (s.setLorentzFactor c_squared (s.getLorentzFactor c_squared)).getEnergy =
        s.getEnergy) := by
  have hmc : 0 < s.pmass * c_squared := mul_pos hm hc
  refine ⟨rfl, ?_, ?_, ?_, ?_⟩
  · intro hlf
    simp only [ParticleState.setLorentzFactor, ParticleState.getEnergy,
      max_eq_left hlf.le, zero_mul]
  · simp only [ParticleState.setLorentzFactor, ParticleState.getEnergy]
    exact mul_nonneg (mul_nonneg (le_max_left 0 lf) hm.le) hc.le
  · simp only [ParticleState.setLorentzFactor, ParticleState.getLorentzFactor]
    rw [mul_assoc, mul_div_assoc, div_self hmc.ne.symm, mul_one]
  · intro hE
    simp only [ParticleState.setLorentzFactor, ParticleState.getLorentzFactor,
      ParticleState.getEnergy] at hE ⊢
    rw [max_eq_right (div_nonneg hE hmc.le), mul_assoc, div_mul_cancel₀ _ hmc.ne.symm]

theorem ParticleState.lorentzFactor_roundtrip_witness :
    ({ ParticleState.onAxis 11 (0 : ℝ) with pmass := 2 }.setLorentzFactor 9
        (-5)).getEnergy = 0 ∧
    ({ ParticleState.onAxis 11 (0 : ℝ) with pmass := 2 }.setLorentzFactor 9
        ({ ParticleState.onAxis 11 (0 : ℝ) with pmass := 2 }.getLorentzFactor 9)).getEnergy =
      1 := by
  have hm : 0 < ({ ParticleState.onAxis 11 (0 : ℝ) with pmass := 2 }).getMass := by
    simp [ParticleState.getMass]
  have h := ParticleState.lorentzFactor_roundtrip (9 : ℝ) (by norm_num)
    { ParticleState.onAxis 11 (0 : ℝ) with pmass := 2 } hm (-5)
  refine ⟨h.2.1 (by norm_num), ?_⟩
  rw [h.2.2.2.2 (by simp [ParticleState.getEnergy, ParticleState.onAxis])]
  rfl

/-- Claim C13: after construction and after any sequence of `setId`, `setEnergy`,
`setLorentzFactor`, `setPosition` and `setDirection` calls, `getCharge()` equals
`chargeOf(getId()) * eplus`; every call other than `setId` leaves the stored charge (and the
identifier) as it was; and `setId` stores the new identifier and its charge and leaves energy,
position, direction and mass as they were. -/
theorem ParticleState.charge_follows_id (sqrt : α → α) (chargeOf : Int → α)
    (eplus c_squared : α) (raw : ParticleState α) (id : Int) (E : α) (pos dir : Vector3d α)
    (ms : List (Setter α)) :
    (ms.foldl (ParticleState.call sqrt chargeOf eplus c_squared)
        (ParticleState.ctor sqrt chargeOf eplus raw id E pos dir)).getCharge =
      chargeOf (ms.foldl (ParticleState.call sqrt chargeOf eplus c_squared)
        (ParticleState.ctor sqrt chargeOf eplus raw id E pos dir)).getId * eplus ∧
    (∀ (s : ParticleState α) (m : Setter α), (∀ n : Int, m ≠ Setter.setId n) →
      (s.call sqrt chargeOf eplus c_squared m).getCharge = s.getCharge ∧
      (s.call sqrt chargeOf eplus c_squared m).getId = s.getId) ∧
    (∀ (s : ParticleState α) (n : Int),
      (s.setId chargeOf eplus n).getId = n ∧
      (s.setId chargeOf eplus n).getCharge = chargeOf n * eplus ∧
      (s.setId chargeOf eplus n).getEnergy = s.getEnergy ∧
      (s.setId chargeOf eplus n).getPosition = s.getPosition ∧
      (s.setId chargeOf eplus n).getDirection = s.getDirection ∧
      (s.setId chargeOf eplus n).getMass = s.getMass) := by
  have hstep : ∀ (s : ParticleState α) (m : Setter α),
      s.getCharge = chargeOf s.getId * eplus →
      (s.call sqrt chargeOf eplus c_squared m).getCharge =
        chargeOf (s.call sqrt chargeOf eplus c_squared m).getId * eplus := by
    intro s m hs
    cases m <;> first
      | rfl
      | exact hs
  have hall : ∀ (l : List (Setter α)) (s : ParticleState α),
      s.getCharge = chargeOf s.getId * eplus →
      (l.foldl (ParticleState.call sqrt chargeOf eplus c_squared) s).getCharge =
        chargeOf (l.foldl (ParticleState.call sqrt chargeOf eplus c_squared) s).getId *
          eplus := by
    intro l
    induction l with
    | nil => intro s hs; exact hs
    | cons m l ih => intro s hs; exact ih _ (hstep s m hs)
  refine ⟨hall ms _ rfl, ?_, ?_⟩
  · intro s m hm
    cases m with
    | setId n => exact absurd rfl (hm n)
    | setEnergy x => exact ⟨rfl, rfl⟩
    | setLorentzFactor lf => exact ⟨rfl, rfl⟩
    | setPosition p => exact ⟨rfl, rfl⟩
    | setDirection d => exact ⟨rfl, rfl⟩
  · intro s n
    exact ⟨rfl, rfl, rfl, rfl, rfl, rfl⟩

theorem ParticleState.charge_follows_id_witness :
    (ParticleState.call Real.sqrt (fun n => (n : ℝ) / 11) 2 9
        (ParticleState.onAxis 11 (0 : ℝ)) (Setter.setEnergy 5)).getCharge =
      (ParticleState.onAxis 11 (0 : ℝ)).getCharge :=
  ((ParticleState.charge_follows_id Real.sqrt (fun n => (n : ℝ) / 11) 2 9
    (ParticleState.onAxis 11 (0 : ℝ)) 11 1 ⟨0, 0, 0⟩ ⟨1, 0, 0⟩ []).2.1
    (ParticleState.onAxis 11 (0 : ℝ)) (Setter.setEnergy 5)
    (fun n h => by cases h)).1

/-! ## Output modules -/

/-- Claim C14: `ConditionalOutput::process`, for every file and condition name, and
`EventOutput1D::process` with the property "Detected", record without duplicates: with the
property present one call appends exactly one record and removes the property, without it
the call changes nothing, a second call right after the first changes nothing more (two
calls append at most one record), and the particle states, trajectory length, redshift,
active flag, step bound and the properties under other names stay as they were. -/
theorem output_process_records_once (u : Units α) (fname condition : String) :
    RecordsOnce (ConditionalOutput.process u fname condition) fname condition ∧
    RecordsOnce (EventOutput1D.process u fname) fname "Detected" := by
  constructor
  · refine recordsOnce_of_shape _ fname condition
      (fun c =>
        [Field.real (c.getTrajectoryLength / u.Mpc),
         Field.int c.current.getId,
         Field.int c.source.getId,
         Field.real (c.current.getEnergy / u.eV),
         Field.real (c.source.getEnergy / u.eV),
         Field.real (c.current.getPosition.div u.Mpc).x,
         Field.real (c.current.getPosition.div u.Mpc).y,
         Field.real (c.current.getPosition.div u.Mpc).z,
         Field.real (c.source.getPosition.div u.Mpc).x,
         Field.real (c.source.getPosition.div u.Mpc).y,
         Field.real (c.source.getPosition.div u.Mpc).z,
         Field.real c.current.getDirection.x, Field.real c.current.getDirection.y,
         Field.real c.current.getDirection.z,
         Field.real c.source.getDirection.x, Field.real c.source.getDirection.y,
         Field.real c.source.getDirection.z,
         Field.real c.getRedshift]) ?_
    intro c out
    unfold ConditionalOutput.process
    cases hc : c.hasProperty condition <;> simp
  · refine recordsOnce_of_shape _ fname "Detected"
      (fun c =>
        [Field.int c.current.getId,
         Field.real (c.current.getEnergy / u.eV),
         Field.real (c.source.getPosition.x / u.Mpc),
         Field.int c.source.getId,
         Field.real (c.source.getEnergy / u.eV)]) ?_
    intro c out
    unfold EventOutput1D.process
    cases hc : c.hasProperty "Detected" <;> simp

theorem output_process_records_once_witness :
    (Candidate.detectedSample 22 (0 : ℝ) 1).hasProperty "Detected" = true ∧
    (ConditionalOutput.process (Units.one ℝ) "out.txt" "Detected"
      (Candidate.detectedSample 22 (0 : ℝ) 1) []).1.hasProperty "Detected" = false ∧
    (EventOutput1D.process (Units.one ℝ) "events.txt"
      (Candidate.detectedSample 22 (0 : ℝ) 1) []).1.hasProperty "Detected" = false := by
  have hc : (Candidate.detectedSample 22 (0 : ℝ) 1).hasProperty "Detected" = true := by
    simp [Candidate.hasProperty, Candidate.detectedSample]
  have h := output_process_records_once (Units.one ℝ) "out.txt" "Detected"
  have h2 := output_process_records_once (Units.one ℝ) "events.txt" "Detected"
  exact ⟨hc, ((h.1 (Candidate.detectedSample 22 (0 : ℝ) 1) []).1 hc).2.2,
    ((h2.2 (Candidate.detectedSample 22 (0 : ℝ) 1) []).1 hc).2.2⟩

/-- Claim C15, the code at the failing input: an active candidate carrying the property
"Detected" is recorded by `EventOutput1D::process` (one record is appended and the property
is removed), whereas the behaviour worded in the class documentation leaves it alone. -/
theorem EventOutput1D.process_records_active_candidate :
    (Candidate.detectedSample 22 (0 : ℝ) 1).active = true ∧
    (Candidate.detectedSample 22 (0 : ℝ) 1).hasProperty "Detected" = true ∧
    (EventOutput1D.process (Units.one ℝ) "events.txt"
      (Candidate.detectedSample 22 (0 : ℝ) 1) []).2.length = 1 ∧
    (EventOutput1D.process (Units.one ℝ) "events.txt"
      (Candidate.detectedSample 22 (0 : ℝ) 1) []).1.hasProperty "Detected" = false ∧
    EventOutput1D.processDoc (Units.one ℝ) "events.txt"
      (Candidate.detectedSample 22 (0 : ℝ) 1) [] =
        (Candidate.detectedSample 22 (0 : ℝ) 1, []) := by
  have hc : (Candidate.detectedSample 22 (0 : ℝ) 1).hasProperty "Detected" = true := by
    simp [Candidate.hasProperty, Candidate.detectedSample]
  refine ⟨rfl, hc, ?_, ?_, ?_⟩
  · simp [EventOutput1D.process, hc]
  · simp only [EventOutput1D.process, hc]
    exact hasProperty_removeProperty _ _
  · simp [EventOutput1D.processDoc, Candidate.detectedSample, Candidate.onAxis]

/-! ## Observer.process: every feature is checked -/

/-- Claim C16: `Observer::process` does not short-circuit. The `checkDetection` calls of a
run are those of features 0, 1, ..., n-1 in this order, once each, whatever was returned (an
observer holding a veto still checks every feature). So after `process` the next-step bound
is at most what it was, at most `|d - radius|` for every small-sphere and every large-sphere
feature in the list (`d` the current distance to its center), and at most `x` when a point
feature is in the list and the current x-coordinate `x` is positive, also when the verdict
is VETO; and an observer without features returns the world as it was. -/
theorem Observer.process_checks_every_feature (sqrt : α → α) (u : Units α) (o : Observer α)
    (w : World α) :
    Call.checked (Observer.callsOf sqrt u o w) = List.range o.features.length ∧
    (Call.verdicts (Observer.callsOf sqrt u o w)).length = o.features.length ∧
    (Observer.process sqrt u o w).candidate.nextStep ≤ w.candidate.nextStep ∧
    (∀ (center : Vector3d α) (radius : α),
      ObserverFeature.ObserverSmallSphere center radius ∈ o.features →
      (Observer.process sqrt u o w).candidate.nextStep ≤
        ((|(w.candidate.current.getPosition.sub center).getR sqrt - radius| : α) :
          WithTop α)) ∧
    (∀ (center : Vector3d α) (radius : α),
      ObserverFeature.ObserverLargeSphere center radius ∈ o.features →
      (Observer.process sqrt u o w).candidate.nextStep ≤
        ((|(w.candidate.current.getPosition.sub center).getR sqrt - radius| : α) :
          WithTop α)) ∧
    (ObserverFeature.ObserverPoint ∈ o.features → w.candidate.current.getPosition.x > 0 →
      (Observer.process sqrt u o w).candidate.nextStep ≤
        ((w.candidate.current.getPosition.x : α) : WithTop α)) ∧
    (o.features = [] → Observer.process sqrt u o w = w) := by
  obtain ⟨hle, hprop⟩ := checkLoop_nextStep sqrt o.features 0 DetectionState.NOTHING w
  rw [process_nextStep]
  refine ⟨checked_callsOf sqrt u o w, ?_, hle, ?_, ?_, ?_, ?_⟩
  · rw [verdicts_callsOf, List.length_map]
  · intro center radius hmem
    refine hprop _ hmem _ ?_
    intro n
    rw [ObserverFeature.checkDetection, smallSphere_candidate]
    exact min_le_right _ _
  · intro center radius hmem
    refine hprop _ hmem _ ?_
    intro n
    rw [ObserverFeature.checkDetection, largeSphere_candidate, abs_sub_comm]
    exact min_le_right _ _
  · intro hmem hx
    refine hprop _ hmem _ ?_
    intro n
    have hx2 : ({ w.candidate with nextStep := n } : Candidate α).current.getPosition.x > 0 :=
      hx
    simp only [ObserverFeature.checkDetection, ObserverPoint.checkDetection, if_pos hx2]
    exact min_le_right _ _
  · intro hnil
    simp only [Observer.process, hnil, Observer.checkLoop, Observer.detectLoop]
    simp

theorem Observer.process_checks_every_feature_witness :
    Call.verdicts (Observer.callsOf Real.sqrt (Units.one ℝ)
      (((Observer.ctor true).add ObserverFeature.ObserverPhotonVeto).add
        ObserverFeature.ObserverPoint)
      (World.start (Candidate.onAxis 2212 (3 : ℝ) 5))) =
        [DetectionState.VETO, DetectionState.NOTHING] ∧
    (Observer.process Real.sqrt (Units.one ℝ)
      (((Observer.ctor true).add ObserverFeature.ObserverPhotonVeto).add
        ObserverFeature.ObserverPoint)
      (World.start (Candidate.onAxis 2212 (3 : ℝ) 5))).candidate.nextStep ≤
        ((3 : ℝ) : WithTop ℝ) := by
  have hx : (World.start (Candidate.onAxis 2212 (3 : ℝ) 5)).candidate.current.getPosition.x >
      0 := by
    simp [World.start, Candidate.onAxis, ParticleState.onAxis, ParticleState.getPosition]
  have h := (Observer.process_checks_every_feature Real.sqrt (Units.one ℝ)
    (((Observer.ctor true).add ObserverFeature.ObserverPhotonVeto).add
      ObserverFeature.ObserverPoint)
    (World.start (Candidate.onAxis 2212 (3 : ℝ) 5))).2.2.2.2.2.1
    (by simp [Observer.ctor, Observer.add]) hx
  refine ⟨?_, h⟩
  rw [verdicts_callsOf]
  simp [Observer.ctor, Observer.add, ObserverFeature.checkDetection,
    ObserverPhotonVeto.checkDetection, ObserverPoint.checkDetection, World.start,
    Candidate.onAxis, ParticleState.onAxis, ParticleState.getId, ParticleState.getPosition]

end Claims

end grpropa
